import Mathlib

/-!
Verification of the perf.data record-stream decoder (package perffile).

The decoder source is records.go.  Pure helpers (weight, decodeDataSrc) are
embedded directly.  The byte cursor (bufDecoder), the record/attribute constant
values and the container-level File structure are declared outside records.go;
they are modelled from the design document, as noted on each definition.

Machine integers are modelled as Nat with explicit bounds / `% 2 ^ 64` where
overflow matters; fallible reads return Option (none models a Go panic from an
out-of-range slice index); the iterator's recorded error is an Option DecodeErr.
-/

set_option maxRecDepth 16000
set_option linter.unusedVariables false

/-! ### Little-endian byte values and byte-list helpers -/

/-- Little-endian value of a list of bytes. -/
def bytesVal : List Nat → Nat
  | [] => 0
  | b :: r => b + 256 * bytesVal r

/-- Shift a byte list right by one bit (with carry-in from the following byte). -/
def shrBytes1 : List Nat → List Nat
  | [] => []
  | b :: r => (b / 2 + 128 * (r.headD 0 % 2)) :: shrBytes1 r

/-- Shift a byte list right by two bits. -/
def shrBytes2 : List Nat → List Nat
  | [] => []
  | b :: r => (b / 4 + 64 * (r.headD 0 % 4)) :: shrBytes2 r

/-- Shift a byte list right by four bits. -/
def shrBytes4 : List Nat → List Nat
  | [] => []
  | b :: r => (b / 16 + 16 * (r.headD 0 % 16)) :: shrBytes4 r

/-- Little-endian encoding of `v` into `w` bytes (test-harness encoder). -/
def encU : Nat → Nat → List Nat
  | 0, _ => []
  | w + 1, v => v % 256 :: encU w (v / 256)

def enc8 (v : Nat) : List Nat := encU 8 v
def enc4 (v : Nat) : List Nat := encU 4 v
def enc2 (v : Nat) : List Nat := encU 2 v

/-! ### Population count -/

/-- Per-byte pipeline of the SWAR popcount, first step. -/
def swarByte1 (b : Nat) : Nat := b - (b / 2 &&& 0x55)

/-- Per-byte pipeline of the SWAR popcount, second step. -/
def swarByte2 (c : Nat) : Nat := (c &&& 0x33) + (c / 4 &&& 0x33)

/-- Number of set bits in one byte, written out. -/
def pcByte (b : Nat) : Nat :=
  b % 2 + b / 2 % 2 + b / 4 % 2 + b / 8 % 2 + b / 16 % 2 + b / 32 % 2 + b / 64 % 2 + b / 128 % 2

/-- Number of set bits, fuel-indexed so that it is structurally recursive
and evaluates in the kernel. -/
def popcountF : Nat → Nat → Nat
  | 0, _ => 0
  | fuel + 1, n => if n = 0 then 0 else n % 2 + popcountF fuel (n / 2)

/-- Number of set bits of a natural number. -/
def popcount (n : Nat) : Nat := popcountF n n

/-! ### weight (records.go: func weight)

The three masked steps cannot overflow a uint64 for x < 2^64 (each is bounded
by its inputs), so only the final multiplication carries an explicit `% 2 ^ 64`. -/

def weight (x : Nat) : Nat :=
  let x1 := x - ((x >>> 1) &&& 0x5555555555555555)
  let x2 := (x1 &&& 0x3333333333333333) + ((x1 >>> 2) &&& 0x3333333333333333)
  let x3 := (x2 + (x2 >>> 4)) &&& 0x0f0f0f0f0f0f0f0f
  ((x3 * 0x0101010101010101) % 2 ^ 64) >>> 56

/-! ### Byte cursor

Modelled from the spec (§4.1 Byte Cursor): the bufDecoder type is declared
outside records.go.  The cursor is the list of remaining bytes; each read
consumes its fixed width; reading past the end returns none (the Go code
panics there; the spec calls out-of-range access the one allowed hard
failure).  Conditional reads return the zero value and consume nothing when
the flag is false.  cstring consumes up to and including a terminating zero
byte.  All values are little-endian. -/

namespace bufDecoder

def rd (w : Nat) (bd : List Nat) : Option (Nat × List Nat) :=
  if w ≤ bd.length then some (bytesVal (bd.take w), bd.drop w) else none

def u64 (bd : List Nat) : Option (Nat × List Nat) := rd 8 bd
def u32 (bd : List Nat) : Option (Nat × List Nat) := rd 4 bd
def u16 (bd : List Nat) : Option (Nat × List Nat) := rd 2 bd

/-- Reinterpret a 32-bit unsigned value as signed (Go int32). -/
def toSigned32 (v : Nat) : Int := if v < 2 ^ 31 then (v : Int) else (v : Int) - 2 ^ 32

def i32 (bd : List Nat) : Option (Int × List Nat) :=
  (rd 4 bd).map (fun p => (toSigned32 p.1, p.2))

def u64If (c : Bool) (bd : List Nat) : Option (Nat × List Nat) :=
  if c then u64 bd else some (0, bd)

def u32If (c : Bool) (bd : List Nat) : Option (Nat × List Nat) :=
  if c then u32 bd else some (0, bd)

def i32If (c : Bool) (bd : List Nat) : Option (Int × List Nat) :=
  if c then i32 bd else some (0, bd)

def cstring (bd : List Nat) : Option (List Nat × List Nat) :=
  match bd.dropWhile (· ≠ 0) with
  | [] => none
  | _ :: r => some (bd.takeWhile (· ≠ 0), r)

def skip (n : Nat) (bd : List Nat) : Option (List Nat) :=
  if n ≤ bd.length then some (bd.drop n) else none

/-- Read n 64-bit words (models bd.u64s filling a slice of length n). -/
def u64s : Nat → List Nat → Option (List Nat × List Nat)
  | 0, bd => some ([], bd)
  | n + 1, bd =>
    match u64 bd with
    | none => none
    | some (v, bd) =>
      match u64s n bd with
      | none => none
      | some (vs, bd) => some (v :: vs, bd)

/-- Read n raw bytes (models bd.bytes filling a slice of length n). -/
def bytesN (n : Nat) (bd : List Nat) : Option (List Nat × List Nat) :=
  if n ≤ bd.length then some (bd.take n, bd.drop n) else none

end bufDecoder

/-- Boolean test of a format bit, as written in the Go conditionals
(t & Bit != 0). -/
def hasBit (t k : Nat) : Bool := t &&& k ≠ 0

/-! ### Format constants

Modelled from the spec: these constants are declared outside records.go; their
values are the Linux perf ABI bit positions the spec's field order refers to.
Only their distinctness and their pairing with the decode steps matter here. -/

def SampleFormatIP : Nat := 1 <<< 0
def SampleFormatTID : Nat := 1 <<< 1
def SampleFormatTime : Nat := 1 <<< 2
def SampleFormatAddr : Nat := 1 <<< 3
def SampleFormatRead : Nat := 1 <<< 4
def SampleFormatCallchain : Nat := 1 <<< 5
def SampleFormatID : Nat := 1 <<< 6
def SampleFormatCPU : Nat := 1 <<< 7
def SampleFormatPeriod : Nat := 1 <<< 8
def SampleFormatStreamID : Nat := 1 <<< 9
def SampleFormatRaw : Nat := 1 <<< 10
def SampleFormatBranchStack : Nat := 1 <<< 11
def SampleFormatRegsUser : Nat := 1 <<< 12
def SampleFormatStackUser : Nat := 1 <<< 13
def SampleFormatWeight : Nat := 1 <<< 14
def SampleFormatDataSrc : Nat := 1 <<< 15
def SampleFormatIdentifier : Nat := 1 <<< 16
def SampleFormatTransaction : Nat := 1 <<< 17

def ReadFormatTotalTimeEnabled : Nat := 1 <<< 0
def ReadFormatTotalTimeRunning : Nat := 1 <<< 1
def ReadFormatID : Nat := 1 <<< 2
def ReadFormatGroup : Nat := 1 <<< 3

/-- Record kind values (RecordTypeMmap = 1 .. recordTypeMmap2 = 10, per the
generated stringer table in recordtype_string.go). -/
def RecordTypeMmap : Nat := 1
def RecordTypeLost : Nat := 2
def RecordTypeComm : Nat := 3
def RecordTypeExit : Nat := 4
def RecordTypeThrottle : Nat := 5
def RecordTypeUnthrottle : Nat := 6
def RecordTypeFork : Nat := 7
def RecordTypeRead : Nat := 8
def RecordTypeSample : Nat := 9
def recordTypeMmap2 : Nat := 10

/-- Modelled from the spec: header-flag constants declared outside records.go
(Linux perf ABI values). -/
def recordMiscCPUModeMask : Nat := 7
def recordMiscMmapData : Nat := 1 <<< 13
def recordMiscCommExec : Nat := 1 <<< 13
def recordMiscExactIP : Nat := 1 <<< 14

/-! ### Data model -/

/-- Fixed 8-byte record header: kind (4 bytes), flags (2 bytes), total size
(2 bytes).  Field ty is the Go field Type (a Lean keyword). -/
structure recordHeader where
  ty : Nat
  misc : Nat
  size : Nat
deriving DecidableEq

/-- Modelled from the spec: the externally-owned event attribute, exposing the
sample-format mask, the read-format mask and the user-register selection mask
consumed by the decoder. -/
structure EventAttr where
  sampleFormat : Nat
  readFormat : Nat
  sampleRegsUser : Nat
deriving DecidableEq

/-- Modelled from the spec: the container-level File collaborator: the
attribute-id lookup table and the stream-wide sample identifier offset
(-1 when no identifier discriminator is present). -/
structure File where
  idToAttr : List (Nat × EventAttr)
  idOffset : Int
deriving DecidableEq

structure RecordMmap where
  data : Bool
  pid : Int
  tid : Int
  addr : Nat
  len : Nat
  pgoff : Nat
  major : Nat
  minor : Nat
  ino : Nat
  inoGeneration : Nat
  prot : Nat
  flags : Nat
  filename : List Nat
deriving DecidableEq

structure RecordComm where
  exec : Bool
  pid : Int
  tid : Int
  comm : List Nat
deriving DecidableEq

structure RecordExit where
  pid : Int
  ppid : Int
  tid : Int
  ptid : Int
  time : Nat
deriving DecidableEq

structure RecordFork where
  pid : Int
  ppid : Int
  tid : Int
  ptid : Int
  time : Nat
deriving DecidableEq

structure RecordLost where
  eventAttr : Option EventAttr
  numLost : Nat
deriving DecidableEq

structure RecordThrottle where
  enable : Bool
  time : Nat
  eventAttr : Option EventAttr
  streamID : Nat
deriving DecidableEq

/-- One entry of a counter-read block. -/
structure SampleRead where
  eventAttr : Option EventAttr
  value : Nat
  timeEnabled : Nat
  timeRunning : Nat
deriving DecidableEq

/-- One taken-branch record {from, to, flags} (from and to are Lean keywords). -/
structure BranchRecord where
  from_ : Nat
  to_ : Nat
  flags : Nat
deriving DecidableEq

/-- Modelled from the spec: each data-source sub-field resolves either to a
not-applicable sentinel or to its shifted value (the Go constant values are
declared outside records.go). -/
inductive DataSrcOp where
  | na
  | val (v : Nat)
deriving DecidableEq

inductive DataSrcLevel where
  | na
  | val (v : Nat)
deriving DecidableEq

inductive DataSrcSnoop where
  | na
  | val (v : Nat)
deriving DecidableEq

inductive DataSrcLock where
  | na
  | locked
  | unlocked
deriving DecidableEq

inductive DataSrcTLB where
  | na
  | val (v : Nat)
deriving DecidableEq

structure DataSrc where
  op : DataSrcOp
  miss : Bool
  level : DataSrcLevel
  snoop : DataSrcSnoop
  locked : DataSrcLock
  tlb : DataSrcTLB
deriving DecidableEq

def DataSrc.zero : DataSrc :=
  { op := DataSrcOp.val 0
    miss := false
    level := DataSrcLevel.val 0
    snoop := DataSrcSnoop.val 0
    locked := DataSrcLock.unlocked
    tlb := DataSrcTLB.val 0 }

structure RecordSample where
  eventAttr : Option EventAttr
  cpuMode : Nat
  exactIP : Bool
  ip : Nat
  pid : Int
  tid : Int
  time : Nat
  addr : Nat
  streamID : Nat
  cpu : Nat
  res : Nat
  period : Nat
  sampleRead : List SampleRead
  callchain : List Nat
  branchStack : List BranchRecord
  regsABI : Nat
  regs : List Nat
  stackUser : List Nat
  stackUserDynSize : Nat
  weight : Nat
  dataSrc : DataSrc
  transaction : Nat
  abortCode : Nat
deriving DecidableEq

/-- The Go zero value of the RecordSample scratch storage. -/
def RecordSample.zero : RecordSample :=
  { eventAttr := none
    cpuMode := 0
    exactIP := false
    ip := 0
    pid := 0
    tid := 0
    time := 0
    addr := 0
    streamID := 0
    cpu := 0
    res := 0
    period := 0
    sampleRead := []
    callchain := []
    branchStack := []
    regsABI := 0
    regs := []
    stackUser := []
    stackUserDynSize := 0
    weight := 0
    dataSrc := DataSrc.zero
    transaction := 0
    abortCode := 0 }

def RecordMmap.zero : RecordMmap :=
  { data := false
    pid := 0
    tid := 0
    addr := 0
    len := 0
    pgoff := 0
    major := 0
    minor := 0
    ino := 0
    inoGeneration := 0
    prot := 0
    flags := 0
    filename := [] }

def RecordComm.zero : RecordComm :=
  { exec := false
    pid := 0
    tid := 0
    comm := [] }

def RecordExit.zero : RecordExit :=
  { pid := 0
    ppid := 0
    tid := 0
    ptid := 0
    time := 0 }

def RecordFork.zero : RecordFork :=
  { pid := 0
    ppid := 0
    tid := 0
    ptid := 0
    time := 0 }

/-- The closed variant of decoded records; unrecognized kinds carry the raw
header (RecordUnknown). -/
inductive Record where
  | unknown (hdr : recordHeader)
  | mmap (m : RecordMmap)
  | lost (l : RecordLost)
  | comm (c : RecordComm)
  | exit (e : RecordExit)
  | throttle (t : RecordThrottle)
  | fork (f : RecordFork)
  | sample (s : RecordSample)
deriving DecidableEq

/-- The iterator's error values. -/
inductive DecodeErr where
  | unexpectedEOF
  | unknownAttrID (id : Nat)
deriving DecidableEq

/-- The record iterator: stream of remaining bytes, sticky error, current
record (none models a nil Record) and the reused per-kind scratch storage. -/
structure Records where
  f : File
  stream : List Nat
  err : Option DecodeErr
  record : Option Record
  recordMmap : RecordMmap
  recordComm : RecordComm
  recordExit : RecordExit
  recordFork : RecordFork
  recordSample : RecordSample
deriving DecidableEq

/-! ### Decoders (records.go) -/

/-- records.go getAttr: the map lookup; failure is reported by the caller
recording DecodeErr.unknownAttrID. -/
def getAttr (fl : File) (id : Nat) : Option EventAttr :=
  List.lookup id fl.idToAttr

/-- records.go decodeDataSrc. -/
def decodeDataSrc (d : Nat) : DataSrc :=
  let op := (d >>> 0) &&& 0x1f
  let lvl := (d >>> 5) &&& 0x3fff
  let snoop := (d >>> 19) &&& 0x1f
  let lock := (d >>> 24) &&& 0x3
  let dtlb := (d >>> 26) &&& 0x7f
  { op := if hasBit op 0x1 then DataSrcOp.na else DataSrcOp.val (op >>> 1)
    miss := if hasBit lvl 0x1 then false else hasBit lvl 0x4
    level := if hasBit lvl 0x1 then DataSrcLevel.na else DataSrcLevel.val (lvl >>> 3)
    snoop := if hasBit snoop 0x1 then DataSrcSnoop.na else DataSrcSnoop.val (snoop >>> 1)
    locked := if hasBit lock 0x1 then DataSrcLock.na
              else if hasBit lock 0x2 then DataSrcLock.locked else DataSrcLock.unlocked
    tlb := if hasBit dtlb 0x1 then DataSrcTLB.na else DataSrcTLB.val (dtlb >>> 1) }

open bufDecoder in
/-- records.go parseMmap.  prev is the reused scratch record r.recordMmap: the
six mmap2-only fields are only assigned on the v2 path. -/
def parseMmap (prev : RecordMmap) (hdr : recordHeader) (v2 : Bool) (bd : List Nat) :
    Option (RecordMmap × List Nat) :=
  match i32 bd with
  | none => none
  | some (pid, bd) =>
  match i32 bd with
  | none => none
  | some (tid, bd) =>
  match u64 bd with
  | none => none
  | some (addr, bd) =>
  match u64 bd with
  | none => none
  | some (len, bd) =>
  match u64 bd with
  | none => none
  | some (pgoff, bd) =>
  if v2 then
    match u32 bd with
    | none => none
    | some (major, bd) =>
    match u32 bd with
    | none => none
    | some (minor, bd) =>
    match u64 bd with
    | none => none
    | some (ino, bd) =>
    match u64 bd with
    | none => none
    | some (inoGeneration, bd) =>
    match u32 bd with
    | none => none
    | some (prot, bd) =>
    match u32 bd with
    | none => none
    | some (flags, bd) =>
    match cstring bd with
    | none => none
    | some (filename, bd) =>
      some ({ prev with
                data := hasBit hdr.misc recordMiscMmapData
                pid := pid
                tid := tid
                addr := addr
                len := len
                pgoff := pgoff
                major := major
                minor := minor
                ino := ino
                inoGeneration := inoGeneration
                prot := prot
                flags := flags
                filename := filename }, bd)
  else
    match cstring bd with
    | none => none
    | some (filename, bd) =>
      some ({ prev with
                data := hasBit hdr.misc recordMiscMmapData
                pid := pid
                tid := tid
                addr := addr
                len := len
                pgoff := pgoff
                filename := filename }, bd)

open bufDecoder in
/-- records.go parseLost: attribute id first, then the lost count; an
unresolvable id records the iterator error. -/
def parseLost (fl : File) (bd : List Nat) :
    Option ((RecordLost × Option DecodeErr) × List Nat) :=
  match u64 bd with
  | none => none
  | some (id, bd) =>
  match u64 bd with
  | none => none
  | some (n, bd) =>
  match getAttr fl id with
  | some a => some ((⟨some a, n⟩, none), bd)
  | none => some ((⟨none, n⟩, some (DecodeErr.unknownAttrID id)), bd)

open bufDecoder in
/-- records.go parseComm. -/
def parseComm (prev : RecordComm) (hdr : recordHeader) (bd : List Nat) :
    Option (RecordComm × List Nat) :=
  match i32 bd with
  | none => none
  | some (pid, bd) =>
  match i32 bd with
  | none => none
  | some (tid, bd) =>
  match cstring bd with
  | none => none
  | some (comm, bd) =>
    some ({ prev with
              exec := hasBit hdr.misc recordMiscCommExec
              pid := pid
              tid := tid
              comm := comm }, bd)

open bufDecoder in
/-- records.go parseExit. -/
def parseExit (prev : RecordExit) (bd : List Nat) : Option (RecordExit × List Nat) :=
  match i32 bd with
  | none => none
  | some (pid, bd) =>
  match i32 bd with
  | none => none
  | some (ppid, bd) =>
  match i32 bd with
  | none => none
  | some (tid, bd) =>
  match i32 bd with
  | none => none
  | some (ptid, bd) =>
  match u64 bd with
  | none => none
  | some (time, bd) =>
    some ({ prev with
              pid := pid
              ppid := ppid
              tid := tid
              ptid := ptid
              time := time }, bd)

open bufDecoder in
/-- records.go parseThrottle: time, then attribute id, then stream id; an
unresolvable id records the iterator error. -/
def parseThrottle (fl : File) (enable : Bool) (bd : List Nat) :
    Option ((RecordThrottle × Option DecodeErr) × List Nat) :=
  match u64 bd with
  | none => none
  | some (time, bd) =>
  match u64 bd with
  | none => none
  | some (id, bd) =>
  match u64 bd with
  | none => none
  | some (sid, bd) =>
  match getAttr fl id with
  | some a => some ((⟨enable, time, some a, sid⟩, none), bd)
  | none => some ((⟨enable, time, none, sid⟩, some (DecodeErr.unknownAttrID id)), bd)

open bufDecoder in
/-- records.go parseFork. -/
def parseFork (prev : RecordFork) (bd : List Nat) : Option (RecordFork × List Nat) :=
  match i32 bd with
  | none => none
  | some (pid, bd) =>
  match i32 bd with
  | none => none
  | some (ppid, bd) =>
  match i32 bd with
  | none => none
  | some (tid, bd) =>
  match i32 bd with
  | none => none
  | some (ptid, bd) =>
  match u64 bd with
  | none => none
  | some (time, bd) =>
    some ({ prev with
              pid := pid
              ppid := ppid
              tid := tid
              ptid := ptid
              time := time }, bd)

/-- Error overwrite: r.err is assigned by each failing lookup, so a later
failure replaces an earlier one. -/
def errOverwrite (first later : Option DecodeErr) : Option DecodeErr :=
  if later.isSome then later else first

open bufDecoder in
/-- The grouped-entry loop of records.go parseReadFormat: each entry reads
time-enabled (conditional), time-running (conditional), value, then the
attribute-id lookup (conditional).  A failed lookup records the error and
decoding continues. -/
def parseReadEntries (fl : File) (f : Nat) : Nat → List Nat →
    Option ((List SampleRead × Option DecodeErr) × List Nat)
  | 0, bd => some (([], none), bd)
  | n + 1, bd =>
    match u64If (hasBit f ReadFormatTotalTimeEnabled) bd with
    | none => none
    | some (te, bd) =>
    match u64If (hasBit f ReadFormatTotalTimeRunning) bd with
    | none => none
    | some (tr, bd) =>
    match u64 bd with
    | none => none
    | some (value, bd) =>
    if hasBit f ReadFormatID then
      match u64 bd with
      | none => none
      | some (id, bd) =>
      match parseReadEntries fl f n bd with
      | none => none
      | some ((restEntries, e2), bd) =>
        some (((⟨getAttr fl id, value, te, tr⟩ :: restEntries),
          errOverwrite (if (getAttr fl id).isSome then none
            else some (DecodeErr.unknownAttrID id)) e2), bd)
    else
      match parseReadEntries fl f n bd with
      | none => none
      | some ((restEntries, e2), bd) =>
        some (((⟨none, value, te, tr⟩ :: restEntries), e2), bd)

open bufDecoder in
/-- records.go parseReadFormat.  With the group bit clear: one entry, read in
the order value, time-enabled?, time-running?, id?.  With the group bit set:
a leading count then that many entries in the grouped order. -/
def parseReadFormat (fl : File) (f : Nat) (bd : List Nat) :
    Option ((List SampleRead × Option DecodeErr) × List Nat) :=
  if hasBit f ReadFormatGroup then
    match u64 bd with
    | none => none
    | some (n, bd) => parseReadEntries fl f n bd
  else
    match u64 bd with
    | none => none
    | some (value, bd) =>
    match u64If (hasBit f ReadFormatTotalTimeEnabled) bd with
    | none => none
    | some (te, bd) =>
    match u64If (hasBit f ReadFormatTotalTimeRunning) bd with
    | none => none
    | some (tr, bd) =>
    if hasBit f ReadFormatID then
      match u64 bd with
      | none => none
      | some (id, bd) =>
        some (([⟨getAttr fl id, value, te, tr⟩],
          if (getAttr fl id).isSome then none else some (DecodeErr.unknownAttrID id)), bd)
    else
      some (([⟨none, value, te, tr⟩], none), bd)

/-- The conditional counter-read block of parseSample (records.go line 224):
when the bit is clear, o.SampleRead is left untouched. -/
def readBlock (c : Bool) (fl : File) (f : Nat) (prevSR : List SampleRead) (bd : List Nat) :
    Option ((List SampleRead × Option DecodeErr) × List Nat) :=
  if c then parseReadFormat fl f bd else some ((prevSR, none), bd)

open bufDecoder in
/-- The conditional call-chain block of parseSample: count then that many
64-bit addresses; cleared to empty when the bit is clear. -/
def ccRead (c : Bool) (bd : List Nat) : Option (List Nat × List Nat) :=
  if c then
    match u64 bd with
    | none => none
    | some (n, bd) => u64s n bd
  else some ([], bd)

open bufDecoder in
/-- The raw block of parseSample: conditional byte count, then skip exactly
that many bytes (a clear bit skips zero bytes). -/
def rawSkip (c : Bool) (bd : List Nat) : Option (List Nat) :=
  match u32If c bd with
  | none => none
  | some (sz, bd) => skip sz bd

open bufDecoder in
/-- The {from, to, flags} triples of the branch-stack block. -/
def parseBranchEntries : Nat → List Nat → Option (List BranchRecord × List Nat)
  | 0, bd => some ([], bd)
  | n + 1, bd =>
    match u64 bd with
    | none => none
    | some (fr, bd) =>
    match u64 bd with
    | none => none
    | some (t, bd) =>
    match u64 bd with
    | none => none
    | some (fg, bd) =>
    match parseBranchEntries n bd with
    | none => none
    | some (rest, bd) =>
      some (({ from_ := fr, to_ := t, flags := fg } : BranchRecord) :: rest, bd)

open bufDecoder in
/-- The conditional branch-stack block of parseSample: count then triples;
when the bit is clear, o.BranchStack is left untouched. -/
def branchRead (c : Bool) (prevB : List BranchRecord) (bd : List Nat) :
    Option (List BranchRecord × List Nat) :=
  if c then
    match u64 bd with
    | none => none
    | some (n, bd) => parseBranchEntries n bd
  else some (prevB, bd)

open bufDecoder in
/-- The conditional user-registers block of parseSample: 64-bit ABI tag, then
weight(SampleRegsUser) 64-bit values; untouched when the bit is clear. -/
def regsRead (c : Bool) (mask prevABI : Nat) (prevRegs : List Nat) (bd : List Nat) :
    Option ((Nat × List Nat) × List Nat) :=
  if c then
    match u64 bd with
    | none => none
    | some (abi, bd) =>
    match u64s (weight mask) bd with
    | none => none
    | some (rs, bd) => some ((abi, rs), bd)
  else some ((prevABI, prevRegs), bd)

open bufDecoder in
/-- The conditional user-stack block of parseSample: size, that many raw
bytes, then the trailing dynamic-size word; cleared when the bit is clear. -/
def stackRead (c : Bool) (bd : List Nat) : Option ((List Nat × Nat) × List Nat) :=
  if c then
    match u64 bd with
    | none => none
    | some (size, bd) =>
    match bytesN size bd with
    | none => none
    | some (bytes, bd) =>
    match u64 bd with
    | none => none
    | some (dyn, bd) => some ((bytes, dyn), bd)
  else some (([], 0), bd)

open bufDecoder in
/-- The conditional data-source word of parseSample; untouched when the bit
is clear. -/
def dataSrcRead (c : Bool) (prevDS : DataSrc) (bd : List Nat) :
    Option (DataSrc × List Nat) :=
  if c then
    match u64 bd with
    | none => none
    | some (d, bd) => some (decodeDataSrc d, bd)
  else some (prevDS, bd)

open bufDecoder in
/-- The scalar prefix of parseSample (records.go lines 212-222): identifier
(discarded), ip, pid, tid, time, addr, a second identifier (discarded),
stream id, cpu, res, period, each conditional on its sample-format bit. -/
def sampleScalars (t : Nat) (bd : List Nat) :
    Option ((Nat × Int × Int × Nat × Nat × Nat × Nat × Nat × Nat) × List Nat) :=
  match u64If (hasBit t SampleFormatIdentifier) bd with
  | none => none
  | some (_, bd) =>
  match u64If (hasBit t SampleFormatIP) bd with
  | none => none
  | some (ip, bd) =>
  match i32If (hasBit t SampleFormatTID) bd with
  | none => none
  | some (pid, bd) =>
  match i32If (hasBit t SampleFormatTID) bd with
  | none => none
  | some (tid, bd) =>
  match u64If (hasBit t SampleFormatTime) bd with
  | none => none
  | some (time, bd) =>
  match u64If (hasBit t SampleFormatAddr) bd with
  | none => none
  | some (addr, bd) =>
  match u64If (hasBit t SampleFormatID) bd with
  | none => none
  | some (_, bd) =>
  match u64If (hasBit t SampleFormatStreamID) bd with
  | none => none
  | some (streamID, bd) =>
  match u32If (hasBit t SampleFormatCPU) bd with
  | none => none
  | some (cpu, bd) =>
  match u32If (hasBit t SampleFormatCPU) bd with
  | none => none
  | some (res, bd) =>
  match u64If (hasBit t SampleFormatPeriod) bd with
  | none => none
  | some (period, bd) =>
    some ((ip, pid, tid, time, addr, streamID, cpu, res, period), bd)

/-- The variable-length tail of parseSample (records.go lines 224-290): the
counter-read block, call chain, raw skip, branch stack, user registers, user
stack, weight, data source and the combined transaction word, in this order. -/
def sampleTail (fl : File) (ea : EventAttr) (prev : RecordSample) (bd : List Nat) :
    Option (((List SampleRead × Option DecodeErr) × List Nat × List BranchRecord ×
      (Nat × List Nat) × (List Nat × Nat) × Nat × DataSrc × Nat) × List Nat) :=
  match readBlock (hasBit ea.sampleFormat SampleFormatRead) fl ea.readFormat
      prev.sampleRead bd with
  | none => none
  | some (sre, bd) =>
  match ccRead (hasBit ea.sampleFormat SampleFormatCallchain) bd with
  | none => none
  | some (callchain, bd) =>
  match rawSkip (hasBit ea.sampleFormat SampleFormatRaw) bd with
  | none => none
  | some bd =>
  match branchRead (hasBit ea.sampleFormat SampleFormatBranchStack) prev.branchStack bd with
  | none => none
  | some (branchStack, bd) =>
  match regsRead (hasBit ea.sampleFormat SampleFormatRegsUser) ea.sampleRegsUser
      prev.regsABI prev.regs bd with
  | none => none
  | some (regsPair, bd) =>
  match stackRead (hasBit ea.sampleFormat SampleFormatStackUser) bd with
  | none => none
  | some (stackPair, bd) =>
  match bufDecoder.u64If (hasBit ea.sampleFormat SampleFormatWeight) bd with
  | none => none
  | some (weightVal, bd) =>
  match dataSrcRead (hasBit ea.sampleFormat SampleFormatDataSrc) prev.dataSrc bd with
  | none => none
  | some (dataSrc, bd) =>
  match bufDecoder.u64If (hasBit ea.sampleFormat SampleFormatTransaction) bd with
  | none => none
  | some (transaction, bd) =>
    some ((sre, callchain, branchStack, regsPair, stackPair, weightVal, dataSrc,
      transaction), bd)

/-- records.go parseSample.  prev is the reused scratch record r.recordSample.
The attribute id is taken from the fixed payload offset f.idOffset (or 0 when
idOffset = -1); an unresolvable id returns a nil record and records the
error.  The body is split into sampleScalars and sampleTail, in the source's
field order. -/
def parseSample (fl : File) (prev : RecordSample) (hdr : recordHeader) (payload : List Nat) :
    Option ((Option RecordSample × Option DecodeErr) × List Nat) :=
  match (if fl.idOffset = -1 then some 0
    else if fl.idOffset.toNat + 8 ≤ payload.length then
      some (bytesVal ((payload.drop fl.idOffset.toNat).take 8))
    else none : Option Nat) with
  | none => none
  | some aid =>
  match getAttr fl aid with
  | none => some ((none, some (DecodeErr.unknownAttrID aid)), payload)
  | some ea =>
  match sampleScalars ea.sampleFormat payload with
  | none => none
  | some ((ip, pid, tid, time, addr, streamID, cpu, res, period), bd) =>
  match sampleTail fl ea prev bd with
  | none => none
  | some (((sampleRead, err1), callchain, branchStack, (regsABI, regs),
      (stackUser, stackUserDynSize), weightVal, dataSrc, transaction), bd) =>
    some ((some { prev with
            eventAttr := some ea
            cpuMode := hdr.misc &&& recordMiscCPUModeMask
            exactIP := hasBit hdr.misc recordMiscExactIP
            ip := ip
            pid := pid
            tid := tid
            time := time
            addr := addr
            streamID := streamID
            cpu := cpu
            res := res
            period := period
            sampleRead := sampleRead
            callchain := callchain
            branchStack := branchStack
            regsABI := regsABI
            regs := regs
            stackUser := stackUser
            stackUserDynSize := stackUserDynSize
            weight := weightVal
            dataSrc := dataSrc
            transaction := transaction &&& 0xffffffff
            abortCode := transaction >>> 32 }, err1), bd)

/-- The per-kind dispatch of Next (records.go lines 83-115): unrecognized
kinds produce the Unknown variant carrying the raw header.  The returned
state carries the decoded record, any recorded error and the updated scratch
storage; none propagates a decoder panic. -/
def dispatch (r : Records) (hdr : recordHeader) (bd : List Nat) : Option Records :=
  if hdr.ty = RecordTypeMmap then
    match parseMmap r.recordMmap hdr false bd with
    | none => none
    | some (m, _) => some { r with record := some (Record.mmap m), recordMmap := m }
  else if hdr.ty = RecordTypeLost then
    match parseLost r.f bd with
    | none => none
    | some ((l, e), _) => some { r with record := some (Record.lost l), err := e }
  else if hdr.ty = RecordTypeComm then
    match parseComm r.recordComm hdr bd with
    | none => none
    | some (c, _) => some { r with record := some (Record.comm c), recordComm := c }
  else if hdr.ty = RecordTypeExit then
    match parseExit r.recordExit bd with
    | none => none
    | some (e, _) => some { r with record := some (Record.exit e), recordExit := e }
  else if hdr.ty = RecordTypeThrottle then
    match parseThrottle r.f true bd with
    | none => none
    | some ((t, e), _) => some { r with record := some (Record.throttle t), err := e }
  else if hdr.ty = RecordTypeUnthrottle then
    match parseThrottle r.f false bd with
    | none => none
    | some ((t, e), _) => some { r with record := some (Record.throttle t), err := e }
  else if hdr.ty = RecordTypeFork then
    match parseFork r.recordFork bd with
    | none => none
    | some (f, _) => some { r with record := some (Record.fork f), recordFork := f }
  else if hdr.ty = RecordTypeSample then
    match parseSample r.f r.recordSample hdr bd with
    | none => none
    | some ((some s, e), _) =>
      some { r with record := some (Record.sample s), recordSample := s, err := e }
    | some ((none, e), _) => some { r with record := none, err := e }
  else if hdr.ty = recordTypeMmap2 then
    match parseMmap r.recordMmap hdr true bd with
    | none => none
    | some (m, _) => some { r with record := some (Record.mmap m), recordMmap := m }
  else
    some { r with record := some (Record.unknown hdr) }

/-- records.go Next: sticky error check; header read (clean end of stream on
an empty stream, a recorded error on a partial header); payload length
int(hdr.Size - 8) in wrapping uint16 arithmetic; payload read (a short read
records the error); dispatch; final error check.  none models a decoder
panic escaping Next. -/
def nextAfterHeader (r : Records) (hdr : recordHeader) (rest : List Nat) :
    Option (Bool × Records) :=
  if rest.length < (hdr.size + 2 ^ 16 - 8) % 2 ^ 16 then
    some (false, { r with stream := [], err := some DecodeErr.unexpectedEOF })
  else
    match dispatch r hdr (rest.take ((hdr.size + 2 ^ 16 - 8) % 2 ^ 16)) with
    | none => none
    | some r1 =>
      some (r1.err.isNone, { r1 with stream := rest.drop ((hdr.size + 2 ^ 16 - 8) % 2 ^ 16) })

/-- records.go Next: sticky error check; header read (clean end of stream on
an empty stream, a recorded error on a partial header); payload length
int(hdr.Size - 8) in wrapping uint16 arithmetic; payload read (a short read
records the error); dispatch; final error check.  none models a decoder
panic escaping Next. -/
def Next (r : Records) : Option (Bool × Records) :=
  if r.err.isSome then some (false, r)
  else if r.stream.isEmpty then some (false, r)
  else if r.stream.length < 8 then some (false, { r with err := some DecodeErr.unexpectedEOF })
  else nextAfterHeader r
    ⟨bytesVal (r.stream.take 4), bytesVal ((r.stream.drop 4).take 2),
      bytesVal ((r.stream.drop 6).take 2)⟩
    (r.stream.drop 8)

/-! ### Test-harness encoders and expected decode results

These definitions follow the field layout the design document mandates
(spec sections 4.2, 4.4, 4.5, 4.6); the theorems below prove that the
decoders at the top of this file consume exactly these layouts. -/

/-- The input of one counter-read entry. -/
structure ReadEntryIn where
  value : Nat
  timeEnabled : Nat
  timeRunning : Nat
  id : Nat
deriving DecidableEq

/-- Grouped read-format entry layout: time-enabled?, time-running?, value,
attribute id?. -/
def encodeReadEntryGroup (f : Nat) (e : ReadEntryIn) : List Nat :=
  (if hasBit f ReadFormatTotalTimeEnabled then enc8 e.timeEnabled else [])
    ++ (if hasBit f ReadFormatTotalTimeRunning then enc8 e.timeRunning else [])
    ++ enc8 e.value
    ++ (if hasBit f ReadFormatID then enc8 e.id else [])

/-- Non-grouped read-format layout: value, time-enabled?, time-running?,
attribute id?. -/
def encodeReadOne (f : Nat) (e : ReadEntryIn) : List Nat :=
  enc8 e.value
    ++ (if hasBit f ReadFormatTotalTimeEnabled then enc8 e.timeEnabled else [])
    ++ (if hasBit f ReadFormatTotalTimeRunning then enc8 e.timeRunning else [])
    ++ (if hasBit f ReadFormatID then enc8 e.id else [])

/-- Read-format block layout: grouped mode carries a leading count. -/
def encodeReadFormat (f : Nat) (es : List ReadEntryIn) : List Nat :=
  if hasBit f ReadFormatGroup then
    enc8 es.length ++ (es.map (encodeReadEntryGroup f)).flatten
  else encodeReadOne f (es.headD ⟨0, 0, 0, 0⟩)

/-- The decoded counter-read entry the decoder must produce for one input
entry. -/
def specReadEntry (fl : File) (f : Nat) (e : ReadEntryIn) : SampleRead :=
  ⟨if hasBit f ReadFormatID then getAttr fl e.id else none,
   e.value,
   if hasBit f ReadFormatTotalTimeEnabled then e.timeEnabled else 0,
   if hasBit f ReadFormatTotalTimeRunning then e.timeRunning else 0⟩

/-- The decoded counter-read block for a list of input entries. -/
def specReadFormat (fl : File) (f : Nat) (es : List ReadEntryIn) : List SampleRead :=
  if hasBit f ReadFormatGroup then es.map (specReadEntry fl f)
  else [specReadEntry fl f (es.headD ⟨0, 0, 0, 0⟩)]

/-- Well-formedness of read-format input entries: field bounds, resolvable
attribute ids when the id bit is set, and a single entry in non-grouped
mode. -/
def readsWF (fl : File) (f : Nat) (es : List ReadEntryIn) : Prop :=
  (∀ e ∈ es, e.value < 2 ^ 64 ∧ e.timeEnabled < 2 ^ 64 ∧ e.timeRunning < 2 ^ 64 ∧
    e.id < 2 ^ 64 ∧ (hasBit f ReadFormatID = true → (getAttr fl e.id).isSome = true)) ∧
  es.length < 2 ^ 64 ∧
  (hasBit f ReadFormatGroup = false → es.length = 1)

/-- The payload fields of one synthetic sample record. -/
structure SampleInput where
  ident : Nat
  ip : Nat
  pid : Nat
  tid : Nat
  time : Nat
  addr : Nat
  ident2 : Nat
  streamID : Nat
  cpu : Nat
  res : Nat
  period : Nat
  reads : List ReadEntryIn
  callchain : List Nat
  raw : List Nat
  branches : List BranchRecord
  regsABI : Nat
  regs : List Nat
  stackBytes : List Nat
  stackDynSize : Nat
  weightVal : Nat
  dataSrcVal : Nat
  transactionVal : Nat
deriving DecidableEq

def encodeBranch (b : BranchRecord) : List Nat :=
  enc8 b.from_ ++ enc8 b.to_ ++ enc8 b.flags

/-- The scalar prefix layout of a sample payload (spec section 4.5 step 3). -/
def encodeScalars (t : Nat) (inp : SampleInput) : List Nat :=
  (if hasBit t SampleFormatIdentifier then enc8 inp.ident else [])
    ++ (if hasBit t SampleFormatIP then enc8 inp.ip else [])
    ++ (if hasBit t SampleFormatTID then enc4 inp.pid else [])
    ++ (if hasBit t SampleFormatTID then enc4 inp.tid else [])
    ++ (if hasBit t SampleFormatTime then enc8 inp.time else [])
    ++ (if hasBit t SampleFormatAddr then enc8 inp.addr else [])
    ++ (if hasBit t SampleFormatID then enc8 inp.ident2 else [])
    ++ (if hasBit t SampleFormatStreamID then enc8 inp.streamID else [])
    ++ (if hasBit t SampleFormatCPU then enc4 inp.cpu else [])
    ++ (if hasBit t SampleFormatCPU then enc4 inp.res else [])
    ++ (if hasBit t SampleFormatPeriod then enc8 inp.period else [])

/-- The variable-length tail layout of a sample payload (spec section 4.5
steps 4-10). -/
def encodeTail (ea : EventAttr) (inp : SampleInput) : List Nat :=
  let t := ea.sampleFormat
  (if hasBit t SampleFormatRead then encodeReadFormat ea.readFormat inp.reads else [])
    ++ (if hasBit t SampleFormatCallchain then
          enc8 inp.callchain.length ++ (inp.callchain.map enc8).flatten else [])
    ++ (if hasBit t SampleFormatRaw then enc4 inp.raw.length ++ inp.raw else [])
    ++ (if hasBit t SampleFormatBranchStack then
          enc8 inp.branches.length ++ (inp.branches.map encodeBranch).flatten else [])
    ++ (if hasBit t SampleFormatRegsUser then
          enc8 inp.regsABI ++ (inp.regs.map enc8).flatten else [])
    ++ (if hasBit t SampleFormatStackUser then
          enc8 inp.stackBytes.length ++ inp.stackBytes ++ enc8 inp.stackDynSize else [])
    ++ (if hasBit t SampleFormatWeight then enc8 inp.weightVal else [])
    ++ (if hasBit t SampleFormatDataSrc then enc8 inp.dataSrcVal else [])
    ++ (if hasBit t SampleFormatTransaction then enc8 inp.transactionVal else [])

/-- A full synthetic sample payload: every field present exactly when its
sample-format bit is set, in the fixed order of spec section 4.5. -/
def encodeSample (ea : EventAttr) (inp : SampleInput) : List Nat :=
  encodeScalars ea.sampleFormat inp ++ encodeTail ea inp

/-- The record parseSample must produce from encodeSample: set bits take the
payload values; clear scalar fields are zero; a clear call-chain or
user-stack bit clears the collection; a clear read, branch-stack,
user-registers or data-source bit leaves the previous scratch contents in
place. -/
def specSample (fl : File) (ea : EventAttr) (hdr : recordHeader) (prev : RecordSample)
    (inp : SampleInput) : RecordSample :=
  let t := ea.sampleFormat
  { eventAttr := some ea
    cpuMode := hdr.misc &&& recordMiscCPUModeMask
    exactIP := hasBit hdr.misc recordMiscExactIP
    ip := if hasBit t SampleFormatIP then inp.ip else 0
    pid := if hasBit t SampleFormatTID then bufDecoder.toSigned32 inp.pid else 0
    tid := if hasBit t SampleFormatTID then bufDecoder.toSigned32 inp.tid else 0
    time := if hasBit t SampleFormatTime then inp.time else 0
    addr := if hasBit t SampleFormatAddr then inp.addr else 0
    streamID := if hasBit t SampleFormatStreamID then inp.streamID else 0
    cpu := if hasBit t SampleFormatCPU then inp.cpu else 0
    res := if hasBit t SampleFormatCPU then inp.res else 0
    period := if hasBit t SampleFormatPeriod then inp.period else 0
    sampleRead := if hasBit t SampleFormatRead then specReadFormat fl ea.readFormat inp.reads
      else prev.sampleRead
    callchain := if hasBit t SampleFormatCallchain then inp.callchain else []
    branchStack := if hasBit t SampleFormatBranchStack then inp.branches else prev.branchStack
    regsABI := if hasBit t SampleFormatRegsUser then inp.regsABI else prev.regsABI
    regs := if hasBit t SampleFormatRegsUser then inp.regs else prev.regs
    stackUser := if hasBit t SampleFormatStackUser then inp.stackBytes else []
    stackUserDynSize := if hasBit t SampleFormatStackUser then inp.stackDynSize else 0
    weight := if hasBit t SampleFormatWeight then inp.weightVal else 0
    dataSrc := if hasBit t SampleFormatDataSrc then decodeDataSrc inp.dataSrcVal
      else prev.dataSrc
    transaction := (if hasBit t SampleFormatTransaction then inp.transactionVal else 0)
      &&& 0xffffffff
    abortCode := (if hasBit t SampleFormatTransaction then inp.transactionVal else 0) >>> 32 }

/-- Well-formedness of a synthetic sample payload: machine-width bounds on
every field, read-format well-formedness, and a register list whose length
is exactly weight(SampleRegsUser) as the stream layout mandates. -/
def sampleWF (fl : File) (ea : EventAttr) (inp : SampleInput) : Prop :=
  inp.ident < 2 ^ 64 ∧ inp.ip < 2 ^ 64 ∧ inp.pid < 2 ^ 32 ∧ inp.tid < 2 ^ 32 ∧
  inp.time < 2 ^ 64 ∧ inp.addr < 2 ^ 64 ∧ inp.ident2 < 2 ^ 64 ∧ inp.streamID < 2 ^ 64 ∧
  inp.cpu < 2 ^ 32 ∧ inp.res < 2 ^ 32 ∧ inp.period < 2 ^ 64 ∧
  readsWF fl ea.readFormat inp.reads ∧
  (∀ v ∈ inp.callchain, v < 2 ^ 64) ∧ inp.callchain.length < 2 ^ 64 ∧
  inp.raw.length < 2 ^ 32 ∧
  (∀ b ∈ inp.branches, b.from_ < 2 ^ 64 ∧ b.to_ < 2 ^ 64 ∧ b.flags < 2 ^ 64) ∧
  inp.branches.length < 2 ^ 64 ∧
  inp.regsABI < 2 ^ 64 ∧ (∀ v ∈ inp.regs, v < 2 ^ 64) ∧
  inp.regs.length = weight ea.sampleRegsUser ∧
  inp.stackBytes.length < 2 ^ 64 ∧ inp.stackDynSize < 2 ^ 64 ∧
  inp.weightVal < 2 ^ 64 ∧ inp.dataSrcVal < 2 ^ 64 ∧ inp.transactionVal < 2 ^ 64

/-- A v1 mmap payload: pid, tid, addr, len, pgoff, zero-terminated
filename. -/
def encodeMmapV1 (pid tid addr len pgoff : Nat) (fname : List Nat) : List Nat :=
  enc4 pid ++ enc4 tid ++ enc8 addr ++ enc8 len ++ enc8 pgoff ++ fname ++ [0]

/-- A v2 (mmap2) payload: additionally major, minor, ino, ino_generation,
prot and flags between pgoff and the filename. -/
def encodeMmapV2 (pid tid addr len pgoff major minor ino inoGen prot flags : Nat)
    (fname : List Nat) : List Nat :=
  enc4 pid ++ enc4 tid ++ enc8 addr ++ enc8 len ++ enc8 pgoff
    ++ enc4 major ++ enc4 minor ++ enc8 ino ++ enc8 inoGen ++ enc4 prot ++ enc4 flags
    ++ fname ++ [0]

/-- An 8-byte record header: kind (4 bytes), flags (2), size (2),
little-endian. -/
def encodeHeader (ty misc size : Nat) : List Nat :=
  enc4 ty ++ enc2 misc ++ enc2 size

/-- A fresh iterator over a byte stream. -/
def mkRecords (fl : File) (stream : List Nat) : Records :=
  ⟨fl, stream, none, none, RecordMmap.zero, RecordComm.zero, RecordExit.zero,
    RecordFork.zero, RecordSample.zero⟩

/-! ### Concrete inputs used to settle individual claims -/

/-- Attribute 1: identifier and branch-stack bits set. -/
def c1Attr1 : EventAttr := ⟨SampleFormatIdentifier ||| SampleFormatBranchStack, 0, 0⟩

/-- Attribute 2: identifier bit only - the branch-stack bit is clear. -/
def c1Attr2 : EventAttr := ⟨SampleFormatIdentifier, 0, 0⟩

def c1File : File := ⟨[(1, c1Attr1), (2, c1Attr2)], 0⟩

/-- First sample: id 1, one branch record (10, 20, 30). -/
def c1Payload1 : List Nat := enc8 1 ++ enc8 1 ++ enc8 10 ++ enc8 20 ++ enc8 30

/-- Second sample: id 2, nothing else. -/
def c1Payload2 : List Nat := enc8 2

def c1State : Records :=
  mkRecords c1File
    (encodeHeader 9 0 48 ++ c1Payload1 ++ encodeHeader 9 0 16 ++ c1Payload2)

/-- Branch stack of the second decoded sample of c1State. -/
def c1Probe : Option (List BranchRecord) :=
  match Next c1State with
  | some (true, r1) =>
    match Next r1 with
    | some (true, r2) =>
      match r2.record with
      | some (Record.sample s) => some s.branchStack
      | _ => none
    | _ => none
  | _ => none

/-- A sample record whose declared call-chain count (50 addresses) reaches
far past the record's 8-byte payload. -/
def c4Attr : EventAttr := ⟨SampleFormatCallchain, 0, 0⟩

def c4State : Records := mkRecords ⟨[(0, c4Attr)], -1⟩ (encodeHeader 9 0 16 ++ enc8 50)

/-- An mmap2 record (major 7, minor 8, ino 9, ino_generation 10, prot 11,
flags 12) followed by a v1 mmap record. -/
def c5State : Records :=
  mkRecords ⟨[], -1⟩
    (encodeHeader 10 0 74 ++ encodeMmapV2 1 2 3 4 5 7 8 9 10 11 12 [65]
      ++ encodeHeader 1 0 42 ++ encodeMmapV1 1 2 3 4 5 [66])

/-- The mmap2-only fields of the second decoded record of c5State. -/
def c5Probe : Option (Nat × Nat × Nat × Nat × Nat × Nat) :=
  match Next c5State with
  | some (true, r1) =>
    match Next r1 with
    | some (true, r2) =>
      match r2.record with
      | some (Record.mmap m) =>
        some (m.major, m.minor, m.ino, m.inoGeneration, m.prot, m.flags)
      | _ => none
    | _ => none
  | _ => none

/-- A stream whose header declares a 100-byte record but whose payload is
missing: the truncated-record failure. -/
def c8State0 : Records := mkRecords ⟨[], -1⟩ (encodeHeader 1 0 100)

/-- The failed iterator state after the truncated read. -/
def c8State1 : Records :=
  { mkRecords ⟨[], -1⟩ [] with err := some DecodeErr.unexpectedEOF }

/-- A well-framed record of the unmodeled kind 100 with a 3-byte payload,
followed by 5 more stream bytes. -/
def c9State : Records :=
  mkRecords ⟨[], -1⟩ (encodeHeader 100 7 11 ++ [1, 2, 3] ++ [9, 9, 9, 9, 9])

/-- A well-framed unknown-kind record with header size 8 - an empty
payload. -/
def c9StateZero : Records := mkRecords ⟨[], -1⟩ (encodeHeader 77 3 8 ++ [4, 4, 4, 4])

/-- A full-coverage event attribute: every sample-format bit set, grouped
read format with timing and ids, register mask with bits {0, 2, 5}. -/
def wEa : EventAttr :=
  ⟨0x3ffff,
   ReadFormatGroup ||| ReadFormatTotalTimeEnabled ||| ReadFormatTotalTimeRunning
     ||| ReadFormatID,
   37⟩

def wFile : File := ⟨[(0, wEa), (5, wEa)], -1⟩

def wHdr : recordHeader := ⟨9, 5, 0⟩

/-- A concrete sample payload exercising every field. -/
def wInp : SampleInput :=
  ⟨1, 2, 3, 4, 5, 6, 7, 8, 9, 10, 11,
   [⟨21, 22, 23, 5⟩, ⟨24, 25, 26, 0⟩],
   [31, 32],
   [41],
   [⟨51, 52, 53⟩],
   61,
   [71, 72, 73],
   [81, 82],
   83,
   91, 92, 93⟩

def c3Attr : EventAttr := ⟨0, 0, 0⟩

def c3File : File := ⟨[(5, c3Attr)], -1⟩

/-- Grouped read format with timing and ids. -/
def c3fG : Nat :=
  ReadFormatGroup ||| ReadFormatTotalTimeEnabled ||| ReadFormatTotalTimeRunning
    ||| ReadFormatID

/-- Non-grouped read format with time-enabled and id only. -/
def c3fNG : Nat := ReadFormatTotalTimeEnabled ||| ReadFormatID

def c3Entries : List ReadEntryIn := [⟨11, 12, 13, 5⟩, ⟨21, 22, 23, 5⟩, ⟨31, 32, 33, 5⟩]

/-! ## Theorems

### SWAR popcount correctness (records.go weight) -/

theorem bytesVal_shrBytes1 (l : List Nat) : bytesVal (shrBytes1 l) = bytesVal l / 2 := by
  induction l with
  | nil => rfl
  | cons b r ih =>
    have hhead : r.headD 0 % 2 = bytesVal r % 2 := by
      cases r with
      | nil => rfl
      | cons c t => show c % 2 = (c + 256 * bytesVal t) % 2; omega
    simp only [shrBytes1, bytesVal, ih, hhead]
    omega

theorem bytesVal_shrBytes2 (l : List Nat) : bytesVal (shrBytes2 l) = bytesVal l / 4 := by
  induction l with
  | nil => rfl
  | cons b r ih =>
    have hhead : r.headD 0 % 4 = bytesVal r % 4 := by
      cases r with
      | nil => rfl
      | cons c t => show c % 4 = (c + 256 * bytesVal t) % 4; omega
    simp only [shrBytes2, bytesVal, ih, hhead]
    omega

theorem bytesVal_shrBytes4 (l : List Nat) : bytesVal (shrBytes4 l) = bytesVal l / 16 := by
  induction l with
  | nil => rfl
  | cons b r ih =>
    have hhead : r.headD 0 % 16 = bytesVal r % 16 := by
      cases r with
      | nil => rfl
      | cons c t => show c % 16 = (c + 256 * bytesVal t) % 16; omega
    simp only [shrBytes4, bytesVal, ih, hhead]
    omega

theorem land_byte_split {b m : Nat} (c M : Nat) (hb : b < 2 ^ 8) (hm : m < 2 ^ 8) :
    (2 ^ 8 * c + b) &&& (2 ^ 8 * M + m) = 2 ^ 8 * (c &&& M) + (b &&& m) := by
  have hbm : (b &&& m) < 2 ^ 8 := Nat.lt_of_le_of_lt Nat.and_le_left hb
  apply Nat.eq_of_testBit_eq
  intro j
  rw [Nat.testBit_and, Nat.testBit_mul_pow_two_add _ hb, Nat.testBit_mul_pow_two_add _ hm,
      Nat.testBit_mul_pow_two_add _ hbm]
  by_cases h : j < 8 <;> simp [h, Nat.testBit_and]

theorem land_high_irrelevant {b m k : Nat} (a : Nat) (hb : b < 2 ^ k) (hm : m < 2 ^ k) :
    (2 ^ k * a + b) &&& m = b &&& m := by
  apply Nat.eq_of_testBit_eq
  intro j
  rw [Nat.testBit_and, Nat.testBit_mul_pow_two_add _ hb, Nat.testBit_and]
  by_cases h : j < k
  · simp [h]
  · have : m.testBit j = false := Nat.testBit_lt_two_pow (lt_of_lt_of_le hm (Nat.pow_le_pow_right (by omega) (by omega)))
    simp [h, this]

theorem bytesVal_land : ∀ (l m : List Nat), (∀ x ∈ l, x < 256) → (∀ x ∈ m, x < 256) →
    l.length = m.length →
    bytesVal l &&& bytesVal m = bytesVal (List.zipWith (· &&& ·) l m) := by
  intro l
  induction l with
  | nil =>
    intro m _ _ hlen
    cases m with
    | nil => rfl
    | cons c t => simp at hlen
  | cons b r ih =>
    intro m hl hm hlen
    cases m with
    | nil => simp at hlen
    | cons c t =>
      have hb : b < 256 := hl b (by simp)
      have hc : c < 256 := hm c (by simp)
      have h1 : b + 256 * bytesVal r = 2 ^ 8 * bytesVal r + b := by ring
      have h2 : c + 256 * bytesVal t = 2 ^ 8 * bytesVal t + c := by ring
      simp only [bytesVal, List.zipWith_cons_cons]
      rw [h1, h2, land_byte_split _ _ (by omega) (by omega)]
      rw [ih t (fun x hx => hl x (by simp [hx])) (fun x hx => hm x (by simp [hx])) (by simpa using hlen)]
      ring

theorem bytesVal_le {m l : List Nat} (h : List.Forall₂ (· ≤ ·) m l) :
    bytesVal m ≤ bytesVal l := by
  induction h with
  | nil => exact le_refl 0
  | cons hab _ ih => simp only [bytesVal]; omega

theorem bytesVal_zipSub {m l : List Nat} (h : List.Forall₂ (· ≤ ·) m l) :
    bytesVal l - bytesVal m = bytesVal (List.zipWith (· - ·) l m) := by
  induction h with
  | nil => rfl
  | @cons a b ta tb hab htail ih =>
    have hle : bytesVal ta ≤ bytesVal tb := bytesVal_le htail
    simp only [bytesVal, List.zipWith_cons_cons]
    omega

theorem bytesVal_zipAdd : ∀ (l m : List Nat), l.length = m.length →
    bytesVal (List.zipWith (· + ·) l m) = bytesVal l + bytesVal m := by
  intro l
  induction l with
  | nil =>
    intro m hlen
    cases m with
    | nil => rfl
    | cons c t => simp at hlen
  | cons b r ih =>
    intro m hlen
    cases m with
    | nil => simp at hlen
    | cons c t =>
      simp only [bytesVal, List.zipWith_cons_cons]
      rw [ih t (by simpa using hlen)]
      ring

theorem and55_shift (q e : Nat) (hq : q < 128) (he : e < 2) :
    (q + 128 * e) &&& 0x55 = q &&& 0x55 := by
  have h : q + 128 * e = 2 ^ 7 * e + q := by ring
  rw [h, land_high_irrelevant e (by omega) (by norm_num)]

theorem and33_shift (q e : Nat) (hq : q < 64) (he : e < 4) :
    (q + 64 * e) &&& 0x33 = q &&& 0x33 := by
  have h : q + 64 * e = 2 ^ 6 * e + q := by ring
  rw [h, land_high_irrelevant e (by omega) (by norm_num)]




theorem swar_byte_facts : ∀ b < 256,
    swarByte2 (swarByte1 b) % 16 + swarByte2 (swarByte1 b) / 16 = pcByte b ∧
    swarByte2 (swarByte1 b) ≤ 68 ∧
    swarByte2 (swarByte1 b) % 16 ≤ 4 ∧
    swarByte1 b ≤ b ∧
    pcByte b ≤ 8 := by decide

theorem andhalf_le (b : Nat) : (b / 2 &&& 0x55) ≤ b :=
  le_trans Nat.and_le_left (Nat.div_le_self b 2)

theorem mem8 {x a0 a1 a2 a3 a4 a5 a6 a7 : Nat}
    (hx : x ∈ [a0, a1, a2, a3, a4, a5, a6, a7]) :
    x = a0 ∨ x = a1 ∨ x = a2 ∨ x = a3 ∨ x = a4 ∨ x = a5 ∨ x = a6 ∨ x = a7 := by
  simpa using hx


theorem swarStage1 (b0 b1 b2 b3 b4 b5 b6 b7 : Nat)
    (hb0 : b0 < 256) (hb1 : b1 < 256) (hb2 : b2 < 256) (hb3 : b3 < 256)
    (hb4 : b4 < 256) (hb5 : b5 < 256) (hb6 : b6 < 256) (hb7 : b7 < 256) :
    bytesVal [b0, b1, b2, b3, b4, b5, b6, b7]
      - ((bytesVal [b0, b1, b2, b3, b4, b5, b6, b7] >>> 1) &&& 0x5555555555555555)
    = bytesVal [swarByte1 b0, swarByte1 b1, swarByte1 b2, swarByte1 b3,
        swarByte1 b4, swarByte1 b5, swarByte1 b6, swarByte1 b7] := by
  have hshr : bytesVal [b0, b1, b2, b3, b4, b5, b6, b7] >>> 1
      = bytesVal [b0/2 + 128*(b1%2), b1/2 + 128*(b2%2), b2/2 + 128*(b3%2), b3/2 + 128*(b4%2),
          b4/2 + 128*(b5%2), b5/2 + 128*(b6%2), b6/2 + 128*(b7%2), b7/2] := by
    rw [Nat.shiftRight_eq_div_pow, pow_one, ← bytesVal_shrBytes1]
    congr 1
  rw [hshr]
  have hmask : (0x5555555555555555 : Nat)
      = bytesVal [0x55, 0x55, 0x55, 0x55, 0x55, 0x55, 0x55, 0x55] := by
    norm_num [bytesVal]
  rw [hmask, bytesVal_land _ _
    (fun x hx => by rcases mem8 hx with rfl|rfl|rfl|rfl|rfl|rfl|rfl|rfl <;> omega)
    (fun x hx => by rcases mem8 hx with rfl|rfl|rfl|rfl|rfl|rfl|rfl|rfl <;> omega)
    (by simp)]
  show bytesVal [b0, b1, b2, b3, b4, b5, b6, b7] - bytesVal
      [(b0/2 + 128*(b1%2)) &&& 0x55, (b1/2 + 128*(b2%2)) &&& 0x55,
       (b2/2 + 128*(b3%2)) &&& 0x55, (b3/2 + 128*(b4%2)) &&& 0x55,
       (b4/2 + 128*(b5%2)) &&& 0x55, (b5/2 + 128*(b6%2)) &&& 0x55,
       (b6/2 + 128*(b7%2)) &&& 0x55, b7/2 &&& 0x55] = _
  rw [and55_shift (b0/2) (b1%2) (by omega) (by omega),
      and55_shift (b1/2) (b2%2) (by omega) (by omega),
      and55_shift (b2/2) (b3%2) (by omega) (by omega),
      and55_shift (b3/2) (b4%2) (by omega) (by omega),
      and55_shift (b4/2) (b5%2) (by omega) (by omega),
      and55_shift (b5/2) (b6%2) (by omega) (by omega),
      and55_shift (b6/2) (b7%2) (by omega) (by omega)]
  rw [bytesVal_zipSub (l := [b0, b1, b2, b3, b4, b5, b6, b7])
    (m := [b0/2 &&& 0x55, b1/2 &&& 0x55, b2/2 &&& 0x55, b3/2 &&& 0x55,
           b4/2 &&& 0x55, b5/2 &&& 0x55, b6/2 &&& 0x55, b7/2 &&& 0x55])
    (by simp only [List.forall₂_cons, List.Forall₂.nil]
        exact ⟨andhalf_le b0, andhalf_le b1, andhalf_le b2, andhalf_le b3,
               andhalf_le b4, andhalf_le b5, andhalf_le b6, andhalf_le b7, trivial⟩)]
  simp [swarByte1]

theorem swarStage2 (c0 c1 c2 c3 c4 c5 c6 c7 : Nat)
    (hc0 : c0 < 256) (hc1 : c1 < 256) (hc2 : c2 < 256) (hc3 : c3 < 256)
    (hc4 : c4 < 256) (hc5 : c5 < 256) (hc6 : c6 < 256) (hc7 : c7 < 256) :
    (bytesVal [c0, c1, c2, c3, c4, c5, c6, c7] &&& 0x3333333333333333)
      + ((bytesVal [c0, c1, c2, c3, c4, c5, c6, c7] >>> 2) &&& 0x3333333333333333)
    = bytesVal [swarByte2 c0, swarByte2 c1, swarByte2 c2, swarByte2 c3,
        swarByte2 c4, swarByte2 c5, swarByte2 c6, swarByte2 c7] := by
  have hmask : (0x3333333333333333 : Nat)
      = bytesVal [0x33, 0x33, 0x33, 0x33, 0x33, 0x33, 0x33, 0x33] := by
    norm_num [bytesVal]
  have hshr : bytesVal [c0, c1, c2, c3, c4, c5, c6, c7] >>> 2
      = bytesVal [c0/4 + 64*(c1%4), c1/4 + 64*(c2%4), c2/4 + 64*(c3%4), c3/4 + 64*(c4%4),
          c4/4 + 64*(c5%4), c5/4 + 64*(c6%4), c6/4 + 64*(c7%4), c7/4] := by
    rw [Nat.shiftRight_eq_div_pow, show (2:Nat)^2 = 4 by norm_num, ← bytesVal_shrBytes2]
    congr 1
  rw [hshr, hmask,
    bytesVal_land _ _
      (fun x hx => by rcases mem8 hx with rfl|rfl|rfl|rfl|rfl|rfl|rfl|rfl <;> omega)
      (fun x hx => by rcases mem8 hx with rfl|rfl|rfl|rfl|rfl|rfl|rfl|rfl <;> omega)
      (by simp),
    bytesVal_land _ _
      (fun x hx => by rcases mem8 hx with rfl|rfl|rfl|rfl|rfl|rfl|rfl|rfl <;> omega)
      (fun x hx => by rcases mem8 hx with rfl|rfl|rfl|rfl|rfl|rfl|rfl|rfl <;> omega)
      (by simp)]
  show bytesVal [c0 &&& 0x33, c1 &&& 0x33, c2 &&& 0x33, c3 &&& 0x33,
        c4 &&& 0x33, c5 &&& 0x33, c6 &&& 0x33, c7 &&& 0x33]
      + bytesVal [(c0/4 + 64*(c1%4)) &&& 0x33, (c1/4 + 64*(c2%4)) &&& 0x33,
          (c2/4 + 64*(c3%4)) &&& 0x33, (c3/4 + 64*(c4%4)) &&& 0x33,
          (c4/4 + 64*(c5%4)) &&& 0x33, (c5/4 + 64*(c6%4)) &&& 0x33,
          (c6/4 + 64*(c7%4)) &&& 0x33, c7/4 &&& 0x33] = _
  rw [and33_shift (c0/4) (c1%4) (by omega) (by omega),
      and33_shift (c1/4) (c2%4) (by omega) (by omega),
      and33_shift (c2/4) (c3%4) (by omega) (by omega),
      and33_shift (c3/4) (c4%4) (by omega) (by omega),
      and33_shift (c4/4) (c5%4) (by omega) (by omega),
      and33_shift (c5/4) (c6%4) (by omega) (by omega),
      and33_shift (c6/4) (c7%4) (by omega) (by omega),
      ← bytesVal_zipAdd _ _ (by simp)]
  simp [swarByte2]

theorem and15_sum (d e : Nat) (hd : d ≤ 68) (hdm : d % 16 ≤ 4) (he : e ≤ 15) :
    (d + (d/16 + 16*e)) &&& 0xf = d % 16 + d / 16 := by
  rw [show (0xf : Nat) = 2^4 - 1 by norm_num, Nat.and_pow_two_sub_one_eq_mod]
  omega

theorem and15_last (d : Nat) (hd : d ≤ 68) (hdm : d % 16 ≤ 4) :
    (d + d/16) &&& 0xf = d % 16 + d / 16 := by
  rw [show (0xf : Nat) = 2^4 - 1 by norm_num, Nat.and_pow_two_sub_one_eq_mod]
  omega

theorem swarStage3 (d0 d1 d2 d3 d4 d5 d6 d7 : Nat)
    (hd0 : d0 ≤ 68) (hd1 : d1 ≤ 68) (hd2 : d2 ≤ 68) (hd3 : d3 ≤ 68)
    (hd4 : d4 ≤ 68) (hd5 : d5 ≤ 68) (hd6 : d6 ≤ 68) (hd7 : d7 ≤ 68)
    (hm0 : d0 % 16 ≤ 4) (hm1 : d1 % 16 ≤ 4) (hm2 : d2 % 16 ≤ 4) (hm3 : d3 % 16 ≤ 4)
    (hm4 : d4 % 16 ≤ 4) (hm5 : d5 % 16 ≤ 4) (hm6 : d6 % 16 ≤ 4) (hm7 : d7 % 16 ≤ 4) :
    (bytesVal [d0, d1, d2, d3, d4, d5, d6, d7]
      + (bytesVal [d0, d1, d2, d3, d4, d5, d6, d7] >>> 4)) &&& 0x0f0f0f0f0f0f0f0f
    = bytesVal [d0%16 + d0/16, d1%16 + d1/16, d2%16 + d2/16, d3%16 + d3/16,
        d4%16 + d4/16, d5%16 + d5/16, d6%16 + d6/16, d7%16 + d7/16] := by
  have hmask : (0x0f0f0f0f0f0f0f0f : Nat)
      = bytesVal [0xf, 0xf, 0xf, 0xf, 0xf, 0xf, 0xf, 0xf] := by
    norm_num [bytesVal]
  have hshr : bytesVal [d0, d1, d2, d3, d4, d5, d6, d7] >>> 4
      = bytesVal [d0/16 + 16*(d1%16), d1/16 + 16*(d2%16), d2/16 + 16*(d3%16),
          d3/16 + 16*(d4%16), d4/16 + 16*(d5%16), d5/16 + 16*(d6%16),
          d6/16 + 16*(d7%16), d7/16] := by
    rw [Nat.shiftRight_eq_div_pow, show (2:Nat)^4 = 16 by norm_num, ← bytesVal_shrBytes4]
    congr 1
  rw [hshr, ← bytesVal_zipAdd _ _ (by simp)]
  show bytesVal [d0 + (d0/16 + 16*(d1%16)), d1 + (d1/16 + 16*(d2%16)),
      d2 + (d2/16 + 16*(d3%16)), d3 + (d3/16 + 16*(d4%16)), d4 + (d4/16 + 16*(d5%16)),
      d5 + (d5/16 + 16*(d6%16)), d6 + (d6/16 + 16*(d7%16)), d7 + d7/16] &&& _ = _
  rw [hmask,
    bytesVal_land _ _
      (fun x hx => by rcases mem8 hx with rfl|rfl|rfl|rfl|rfl|rfl|rfl|rfl <;> omega)
      (fun x hx => by rcases mem8 hx with rfl|rfl|rfl|rfl|rfl|rfl|rfl|rfl <;> omega)
      (by simp)]
  show bytesVal [(d0 + (d0/16 + 16*(d1%16))) &&& 0xf, (d1 + (d1/16 + 16*(d2%16))) &&& 0xf,
      (d2 + (d2/16 + 16*(d3%16))) &&& 0xf, (d3 + (d3/16 + 16*(d4%16))) &&& 0xf,
      (d4 + (d4/16 + 16*(d5%16))) &&& 0xf, (d5 + (d5/16 + 16*(d6%16))) &&& 0xf,
      (d6 + (d6/16 + 16*(d7%16))) &&& 0xf, (d7 + d7/16) &&& 0xf] = _
  rw [and15_sum d0 (d1%16) hd0 hm0 (by omega),
      and15_sum d1 (d2%16) hd1 hm1 (by omega),
      and15_sum d2 (d3%16) hd2 hm2 (by omega),
      and15_sum d3 (d4%16) hd3 hm3 (by omega),
      and15_sum d4 (d5%16) hd4 hm4 (by omega),
      and15_sum d5 (d6%16) hd5 hm5 (by omega),
      and15_sum d6 (d7%16) hd6 hm6 (by omega),
      and15_last d7 hd7 hm7]

theorem final_mul (p0 p1 p2 p3 p4 p5 p6 p7 : Nat)
    (h0 : p0 ≤ 8) (h1 : p1 ≤ 8) (h2 : p2 ≤ 8) (h3 : p3 ≤ 8)
    (h4 : p4 ≤ 8) (h5 : p5 ≤ 8) (h6 : p6 ≤ 8) (h7 : p7 ≤ 8) :
    ((bytesVal [p0, p1, p2, p3, p4, p5, p6, p7] * 0x0101010101010101) % 2^64) >>> 56
      = p0 + p1 + p2 + p3 + p4 + p5 + p6 + p7 := by
  rw [Nat.shiftRight_eq_div_pow]
  have hb : bytesVal [p0, p1, p2, p3, p4, p5, p6, p7]
      = p0 + 256*(p1 + 256*(p2 + 256*(p3 + 256*(p4 + 256*(p5 + 256*(p6 + 256*p7)))))) := by
    simp [bytesVal]
  rw [hb]
  have hprod : (p0 + 256*(p1 + 256*(p2 + 256*(p3 + 256*(p4 + 256*(p5 + 256*(p6 + 256*p7))))))) * 0x0101010101010101
      = ((p0 + 256*((p0+p1) + 256*((p0+p1+p2) + 256*((p0+p1+p2+p3) + 256*((p0+p1+p2+p3+p4) + 256*((p0+p1+p2+p3+p4+p5) + 256*(p0+p1+p2+p3+p4+p5+p6)))))))
        + 2^56 * (p0+p1+p2+p3+p4+p5+p6+p7))
        + 2^64 * ((p1+p2+p3+p4+p5+p6+p7) + 256*((p2+p3+p4+p5+p6+p7) + 256*((p3+p4+p5+p6+p7) + 256*((p4+p5+p6+p7) + 256*((p5+p6+p7) + 256*((p6+p7) + 256*p7)))))) := by
    ring
  rw [hprod, Nat.add_mul_mod_self_left]
  have hL : (p0 + 256*((p0+p1) + 256*((p0+p1+p2) + 256*((p0+p1+p2+p3) + 256*((p0+p1+p2+p3+p4) + 256*((p0+p1+p2+p3+p4+p5) + 256*(p0+p1+p2+p3+p4+p5+p6))))))) < 2^56 := by
    omega
  have hlt : (p0 + 256*((p0+p1) + 256*((p0+p1+p2) + 256*((p0+p1+p2+p3) + 256*((p0+p1+p2+p3+p4) + 256*((p0+p1+p2+p3+p4+p5) + 256*(p0+p1+p2+p3+p4+p5+p6)))))))
        + 2^56 * (p0+p1+p2+p3+p4+p5+p6+p7) < 2^64 := by
    omega
  rw [Nat.mod_eq_of_lt hlt,
      Nat.add_mul_div_left _ _ (by norm_num : (0:Nat) < 2^56),
      Nat.div_eq_of_lt hL, Nat.zero_add]

set_option maxHeartbeats 1000000 in
theorem weight_bytes (b0 b1 b2 b3 b4 b5 b6 b7 : Nat)
    (hb0 : b0 < 256) (hb1 : b1 < 256) (hb2 : b2 < 256) (hb3 : b3 < 256)
    (hb4 : b4 < 256) (hb5 : b5 < 256) (hb6 : b6 < 256) (hb7 : b7 < 256) :
    weight (bytesVal [b0, b1, b2, b3, b4, b5, b6, b7])
      = pcByte b0 + pcByte b1 + pcByte b2 + pcByte b3
        + pcByte b4 + pcByte b5 + pcByte b6 + pcByte b7 := by
  obtain ⟨g0, u0, v0, w0, q0⟩ := swar_byte_facts b0 hb0
  obtain ⟨g1, u1, v1, w1, q1⟩ := swar_byte_facts b1 hb1
  obtain ⟨g2, u2, v2, w2, q2⟩ := swar_byte_facts b2 hb2
  obtain ⟨g3, u3, v3, w3, q3⟩ := swar_byte_facts b3 hb3
  obtain ⟨g4, u4, v4, w4, q4⟩ := swar_byte_facts b4 hb4
  obtain ⟨g5, u5, v5, w5, q5⟩ := swar_byte_facts b5 hb5
  obtain ⟨g6, u6, v6, w6, q6⟩ := swar_byte_facts b6 hb6
  obtain ⟨g7, u7, v7, w7, q7⟩ := swar_byte_facts b7 hb7
  simp only [weight]
  rw [swarStage1 b0 b1 b2 b3 b4 b5 b6 b7 hb0 hb1 hb2 hb3 hb4 hb5 hb6 hb7]
  rw [swarStage2 _ _ _ _ _ _ _ _ (by omega) (by omega) (by omega) (by omega)
      (by omega) (by omega) (by omega) (by omega)]
  rw [swarStage3 _ _ _ _ _ _ _ _ u0 u1 u2 u3 u4 u5 u6 u7 v0 v1 v2 v3 v4 v5 v6 v7]
  rw [g0, g1, g2, g3, g4, g5, g6, g7]
  exact final_mul _ _ _ _ _ _ _ _ q0 q1 q2 q3 q4 q5 q6 q7




theorem popcountF_stable : ∀ f1 f2 n, n ≤ f1 → n ≤ f2 → popcountF f1 n = popcountF f2 n := by
  intro f1
  induction f1 with
  | zero =>
    intro f2 n h1 _
    have : n = 0 := Nat.le_zero.mp h1
    subst this
    cases f2 <;> simp [popcountF]
  | succ f ih =>
    intro f2 n h1 h2
    by_cases hn : n = 0
    · subst hn; cases f2 <;> simp [popcountF]
    · cases f2 with
      | zero => omega
      | succ f2' =>
        simp only [popcountF, hn, if_false]
        rw [ih f2' (n / 2) (by omega) (by omega)]

theorem popcount_rec (n : Nat) : popcount n = n % 2 + popcount (n / 2) := by
  by_cases hn : n = 0
  · subst hn; rfl
  · show popcountF n n = n % 2 + popcountF (n / 2) (n / 2)
    cases n with
    | zero => omega
    | succ m =>
      simp only [popcountF, hn, if_false]
      congr 1
      exact popcountF_stable m ((m+1)/2) ((m+1)/2) (by omega) (le_refl _)

theorem popcount_split {a : Nat} (k c : Nat) (ha : a < 2 ^ k) :
    popcount (a + 2 ^ k * c) = popcount a + popcount c := by
  induction k generalizing a c with
  | zero =>
    have ha0 : a = 0 := by omega
    subst ha0
    have h0 : popcount 0 = 0 := rfl
    simp [h0]
  | succ k ih =>
    rw [popcount_rec (a + 2 ^ (k+1) * c)]
    have h1 : a + 2 ^ (k+1) * c = a + 2 * (2 ^ k * c) := by ring
    have h2 : (a + 2 ^ (k+1) * c) % 2 = a % 2 := by
      rw [h1, Nat.add_mul_mod_self_left]
    have h3 : (a + 2 ^ (k+1) * c) / 2 = a / 2 + 2 ^ k * c := by
      rw [h1, Nat.add_mul_div_left _ _ (by omega : (0:Nat) < 2)]
    have ha2 : a / 2 < 2 ^ k := by omega
    rw [h2, h3, ih c ha2, popcount_rec a]
    ring

theorem pcByte_eq_popcount (b : Nat) (hb : b < 256) : pcByte b = popcount b := by
  rw [popcount_rec b, popcount_rec (b/2), popcount_rec (b/2/2), popcount_rec (b/2/2/2),
      popcount_rec (b/2/2/2/2), popcount_rec (b/2/2/2/2/2), popcount_rec (b/2/2/2/2/2/2),
      popcount_rec (b/2/2/2/2/2/2/2)]
  have hz : b/2/2/2/2/2/2/2/2 = 0 := by omega
  rw [hz]
  have hp0 : popcount 0 = 0 := rfl
  rw [hp0]
  simp only [pcByte]
  omega

theorem popcount_byte_step (y : Nat) : popcount y = popcount (y % 256) + popcount (y / 256) := by
  conv_lhs => rw [show y = y % 256 + 2 ^ 8 * (y / 256) by omega]
  exact popcount_split 8 (y / 256) (by omega)

theorem weight_eq_popcount (x : Nat) (hx : x < 2 ^ 64) : weight x = popcount x := by
  have hz : x/256/256/256/256/256/256/256/256 = 0 := by omega
  have hsplit : popcount x = pcByte (x % 256) + pcByte (x/256 % 256) + pcByte (x/256/256 % 256)
      + pcByte (x/256/256/256 % 256) + pcByte (x/256/256/256/256 % 256)
      + pcByte (x/256/256/256/256/256 % 256) + pcByte (x/256/256/256/256/256/256 % 256)
      + pcByte (x/256/256/256/256/256/256/256 % 256) := by
    rw [popcount_byte_step x, popcount_byte_step (x/256), popcount_byte_step (x/256/256),
        popcount_byte_step (x/256/256/256), popcount_byte_step (x/256/256/256/256),
        popcount_byte_step (x/256/256/256/256/256), popcount_byte_step (x/256/256/256/256/256/256),
        popcount_byte_step (x/256/256/256/256/256/256/256), hz]
    have hp0 : popcount 0 = 0 := rfl
    rw [hp0,
        pcByte_eq_popcount (x % 256) (by omega),
        pcByte_eq_popcount (x/256 % 256) (by omega),
        pcByte_eq_popcount (x/256/256 % 256) (by omega),
        pcByte_eq_popcount (x/256/256/256 % 256) (by omega),
        pcByte_eq_popcount (x/256/256/256/256 % 256) (by omega),
        pcByte_eq_popcount (x/256/256/256/256/256 % 256) (by omega),
        pcByte_eq_popcount (x/256/256/256/256/256/256 % 256) (by omega),
        pcByte_eq_popcount (x/256/256/256/256/256/256/256 % 256) (by omega)]
    ring
  have hdecomp : x = bytesVal [x % 256, x/256 % 256, x/256/256 % 256, x/256/256/256 % 256,
      x/256/256/256/256 % 256, x/256/256/256/256/256 % 256, x/256/256/256/256/256/256 % 256,
      x/256/256/256/256/256/256/256 % 256] := by
    simp only [bytesVal]
    omega
  rw [hsplit]
  conv_lhs => rw [hdecomp]
  exact weight_bytes _ _ _ _ _ _ _ _ (by omega) (by omega) (by omega) (by omega)
    (by omega) (by omega) (by omega) (by omega)

/-! ### Byte-cursor lemmas: each read consumes exactly its encoding -/

theorem encU_length (w v : Nat) : (encU w v).length = w := by
  induction w generalizing v with
  | zero => rfl
  | succ w ih => simp [encU, ih]

theorem bytesVal_encU (w v : Nat) : bytesVal (encU w v) = v % 256 ^ w := by
  induction w generalizing v with
  | zero => simp [encU, bytesVal, Nat.mod_one]
  | succ w ih =>
    simp only [encU, bytesVal, ih]
    have h1 : 256 ^ (w + 1) = 256 * 256 ^ w := by ring
    rw [h1, Nat.mod_mul]

theorem rd_enc (w v : Nat) (rest : List Nat) (hv : v < 256 ^ w) :
    bufDecoder.rd w (encU w v ++ rest) = some (v, rest) := by
  unfold bufDecoder.rd
  have hlen : (encU w v).length = w := encU_length w v
  rw [if_pos (by simp [hlen])]
  rw [List.take_append_of_le_length (by omega), List.drop_append_of_le_length (by omega)]
  rw [List.take_of_length_le (by omega), List.drop_eq_nil_of_le (by omega)]
  simp [bytesVal_encU, Nat.mod_eq_of_lt hv]

theorem u64_enc (v : Nat) (rest : List Nat) (hv : v < 2 ^ 64) :
    bufDecoder.u64 (enc8 v ++ rest) = some (v, rest) :=
  rd_enc 8 v rest (by norm_num at hv ⊢; omega)

theorem u32_enc (v : Nat) (rest : List Nat) (hv : v < 2 ^ 32) :
    bufDecoder.u32 (enc4 v ++ rest) = some (v, rest) :=
  rd_enc 4 v rest (by norm_num at hv ⊢; omega)

theorem i32_enc (v : Nat) (rest : List Nat) (hv : v < 2 ^ 32) :
    bufDecoder.i32 (enc4 v ++ rest) = some (bufDecoder.toSigned32 v, rest) := by
  unfold bufDecoder.i32
  rw [show bufDecoder.rd 4 (enc4 v ++ rest) = some (v, rest) from
    rd_enc 4 v rest (by norm_num at hv ⊢; omega)]
  rfl

theorem u64If_enc (c : Bool) (v : Nat) (rest : List Nat) (hv : v < 2 ^ 64) :
    bufDecoder.u64If c ((if c then enc8 v else []) ++ rest)
      = some ((if c then v else 0), rest) := by
  cases c
  · simp [bufDecoder.u64If]
  · simp [bufDecoder.u64If, u64_enc v rest hv]

theorem u32If_enc (c : Bool) (v : Nat) (rest : List Nat) (hv : v < 2 ^ 32) :
    bufDecoder.u32If c ((if c then enc4 v else []) ++ rest)
      = some ((if c then v else 0), rest) := by
  cases c
  · simp [bufDecoder.u32If]
  · simp [bufDecoder.u32If, u32_enc v rest hv]

theorem i32If_enc (c : Bool) (v : Nat) (rest : List Nat) (hv : v < 2 ^ 32) :
    bufDecoder.i32If c ((if c then enc4 v else []) ++ rest)
      = some ((if c then bufDecoder.toSigned32 v else 0), rest) := by
  cases c
  · simp [bufDecoder.i32If]
  · simp [bufDecoder.i32If, i32_enc v rest hv]

theorem cstring_enc (s : List Nat) (rest : List Nat) (hs : ∀ b ∈ s, b ≠ 0) :
    bufDecoder.cstring (s ++ 0 :: rest) = some (s, rest) := by
  unfold bufDecoder.cstring
  have hdw : ∀ (s : List Nat), (∀ b ∈ s, b ≠ 0) →
      (s ++ 0 :: rest).dropWhile (· ≠ 0) = 0 :: rest := by
    intro s hs
    induction s with
    | nil => simp [List.dropWhile]
    | cons a t ih =>
      have ha : a ≠ 0 := hs a (by simp)
      simp only [List.cons_append, List.dropWhile_cons, ha]
      simpa [ha] using ih (fun b hb => hs b (by simp [hb]))
  have htw : ∀ (s : List Nat), (∀ b ∈ s, b ≠ 0) →
      (s ++ 0 :: rest).takeWhile (· ≠ 0) = s := by
    intro s hs
    induction s with
    | nil => simp [List.takeWhile]
    | cons a t ih =>
      have ha : a ≠ 0 := hs a (by simp)
      simp only [List.cons_append, List.takeWhile_cons, ha]
      simpa [ha] using ih (fun b hb => hs b (by simp [hb]))
  rw [hdw s hs, htw s hs]

theorem skip_enc (s rest : List Nat) : bufDecoder.skip s.length (s ++ rest) = some rest := by
  unfold bufDecoder.skip
  rw [if_pos (by simp), List.drop_append_of_le_length (by omega),
    List.drop_eq_nil_of_le (by omega)]
  simp

theorem bytesN_enc (s rest : List Nat) :
    bufDecoder.bytesN s.length (s ++ rest) = some (s, rest) := by
  unfold bufDecoder.bytesN
  rw [if_pos (by simp), List.take_append_of_le_length (by omega),
    List.drop_append_of_le_length (by omega),
    List.take_of_length_le (by omega), List.drop_eq_nil_of_le (by omega)]
  simp

theorem u64s_enc (l : List Nat) (rest : List Nat) (hl : ∀ v ∈ l, v < 2 ^ 64) :
    bufDecoder.u64s l.length ((l.map enc8).flatten ++ rest) = some (l, rest) := by
  induction l with
  | nil => rfl
  | cons v t ih =>
    have hv : v < 2 ^ 64 := hl v (by simp)
    simp only [List.map_cons, List.flatten_cons, List.length_cons, List.append_assoc]
    simp only [bufDecoder.u64s, u64_enc v _ hv]
    rw [ih (fun x hx => hl x (by simp [hx]))]

/-! ### Block lemmas for the sample decoder -/

theorem parseBranchEntries_enc (l : List BranchRecord) (rest : List Nat)
    (hl : ∀ b ∈ l, b.from_ < 2 ^ 64 ∧ b.to_ < 2 ^ 64 ∧ b.flags < 2 ^ 64) :
    parseBranchEntries l.length ((l.map encodeBranch).flatten ++ rest) = some (l, rest) := by
  induction l with
  | nil => rfl
  | cons b t ih =>
    obtain ⟨h1, h2, h3⟩ := hl b (by simp)
    simp only [List.map_cons, List.flatten_cons, List.length_cons, encodeBranch,
      List.append_assoc]
    simp only [parseBranchEntries, u64_enc _ _ h1, u64_enc _ _ h2, u64_enc _ _ h3]
    rw [ih (fun x hx => hl x (by simp [hx]))]

theorem parseReadEntries_enc (fl : File) (f : Nat) (es : List ReadEntryIn) (rest : List Nat)
    (hes : ∀ e ∈ es, e.value < 2 ^ 64 ∧ e.timeEnabled < 2 ^ 64 ∧ e.timeRunning < 2 ^ 64 ∧
      e.id < 2 ^ 64 ∧ (hasBit f ReadFormatID = true → (getAttr fl e.id).isSome = true)) :
    parseReadEntries fl f es.length ((es.map (encodeReadEntryGroup f)).flatten ++ rest)
      = some ((es.map (specReadEntry fl f), none), rest) := by
  induction es with
  | nil => rfl
  | cons e t ih =>
    obtain ⟨h1, h2, h3, h4, h5⟩ := hes e (by simp)
    have ihr := ih (fun x hx => hes x (by simp [hx]))
    cases hid : hasBit f ReadFormatID with
    | false =>
      simp only [List.map_cons, List.flatten_cons, List.length_cons, encodeReadEntryGroup,
        hid, Bool.false_eq_true, if_false, List.append_nil, List.append_assoc]
      simp only [parseReadEntries, hid, Bool.false_eq_true, if_false,
        u64If_enc _ _ _ h2, u64If_enc _ _ _ h3, u64_enc _ _ h1, ihr]
      simp [specReadEntry, hid]
    | true =>
      have hsome := h5 hid
      simp only [List.map_cons, List.flatten_cons, List.length_cons, encodeReadEntryGroup,
        hid, if_true, List.append_assoc]
      simp only [parseReadEntries, hid, if_true,
        u64If_enc _ _ _ h2, u64If_enc _ _ _ h3, u64_enc _ _ h1, u64_enc _ _ h4, ihr]
      simp [specReadEntry, hid, hsome, errOverwrite]

theorem parseReadFormat_enc (fl : File) (f : Nat) (es : List ReadEntryIn) (rest : List Nat)
    (hwf : readsWF fl f es) :
    parseReadFormat fl f (encodeReadFormat f es ++ rest)
      = some ((specReadFormat fl f es, none), rest) := by
  obtain ⟨hes, hlen, hone⟩ := hwf
  cases hg : hasBit f ReadFormatGroup with
  | true =>
    simp only [parseReadFormat, encodeReadFormat, specReadFormat, hg, if_true,
      List.append_assoc]
    simp only [u64_enc _ _ hlen]
    exact parseReadEntries_enc fl f es rest hes
  | false =>
    have hlen1 : es.length = 1 := hone hg
    obtain ⟨e, he⟩ : ∃ e, es = [e] := by
      cases es with
      | nil => simp at hlen1
      | cons a t =>
        cases t with
        | nil => exact ⟨a, rfl⟩
        | cons b u => simp at hlen1
    subst he
    obtain ⟨h1, h2, h3, h4, h5⟩ := hes e (by simp)
    cases hid : hasBit f ReadFormatID with
    | false =>
      simp only [parseReadFormat, encodeReadFormat, specReadFormat, hg, hid,
        Bool.false_eq_true, if_false, List.headD_cons, encodeReadOne, List.append_nil,
        List.append_assoc]
      simp only [u64_enc _ _ h1, u64If_enc _ _ _ h2, u64If_enc _ _ _ h3]
      simp [specReadEntry, hid]
    | true =>
      have hsome := h5 hid
      simp only [parseReadFormat, encodeReadFormat, specReadFormat, hg,
        Bool.false_eq_true, if_false, List.headD_cons, encodeReadOne, hid, if_true,
        List.append_assoc]
      simp only [u64_enc _ _ h1, u64If_enc _ _ _ h2, u64If_enc _ _ _ h3, u64_enc _ _ h4]
      simp [specReadEntry, hid, hsome]

theorem readBlock_enc (c : Bool) (fl : File) (f : Nat) (prevSR : List SampleRead)
    (es : List ReadEntryIn) (rest : List Nat) (hwf : readsWF fl f es) :
    readBlock c fl f prevSR ((if c then encodeReadFormat f es else []) ++ rest)
      = some (((if c then specReadFormat fl f es else prevSR), none), rest) := by
  cases c
  · simp [readBlock]
  · simp only [readBlock, if_true, List.nil_append]
    exact parseReadFormat_enc fl f es rest hwf

theorem ccRead_enc (c : Bool) (cc : List Nat) (rest : List Nat)
    (hcc : ∀ v ∈ cc, v < 2 ^ 64) (hlen : cc.length < 2 ^ 64) :
    ccRead c ((if c then enc8 cc.length ++ (cc.map enc8).flatten else []) ++ rest)
      = some ((if c then cc else []), rest) := by
  cases c
  · simp [ccRead]
  · simp only [ccRead, if_true, List.append_assoc]
    simp only [u64_enc _ _ hlen]
    exact u64s_enc cc rest hcc

theorem rawSkip_enc (c : Bool) (raw : List Nat) (rest : List Nat)
    (hlen : raw.length < 2 ^ 32) :
    rawSkip c ((if c then enc4 raw.length ++ raw else []) ++ rest) = some rest := by
  cases c
  · simp [rawSkip, bufDecoder.u32If, bufDecoder.skip]
  · simp only [rawSkip, bufDecoder.u32If, if_true, List.append_assoc]
    simp only [u32_enc _ _ hlen]
    exact skip_enc raw rest

theorem branchRead_enc (c : Bool) (prevB : List BranchRecord) (l : List BranchRecord)
    (rest : List Nat)
    (hl : ∀ b ∈ l, b.from_ < 2 ^ 64 ∧ b.to_ < 2 ^ 64 ∧ b.flags < 2 ^ 64)
    (hlen : l.length < 2 ^ 64) :
    branchRead c prevB ((if c then enc8 l.length ++ (l.map encodeBranch).flatten else [])
        ++ rest)
      = some ((if c then l else prevB), rest) := by
  cases c
  · simp [branchRead]
  · simp only [branchRead, if_true, List.append_assoc]
    simp only [u64_enc _ _ hlen]
    exact parseBranchEntries_enc l rest hl

theorem regsRead_enc (c : Bool) (mask prevABI : Nat) (prevRegs : List Nat) (abi : Nat)
    (regs : List Nat) (rest : List Nat) (habi : abi < 2 ^ 64)
    (hregs : ∀ v ∈ regs, v < 2 ^ 64) (hcount : regs.length = weight mask) :
    regsRead c mask prevABI prevRegs ((if c then enc8 abi ++ (regs.map enc8).flatten
        else []) ++ rest)
      = some ((if c then (abi, regs) else (prevABI, prevRegs)), rest) := by
  cases c
  · simp [regsRead]
  · simp only [regsRead, if_true, List.append_assoc]
    simp only [u64_enc _ _ habi]
    rw [← hcount, u64s_enc regs rest hregs]

theorem stackRead_enc (c : Bool) (s : List Nat) (dyn : Nat) (rest : List Nat)
    (hlen : s.length < 2 ^ 64) (hdyn : dyn < 2 ^ 64) :
    stackRead c ((if c then enc8 s.length ++ (s ++ enc8 dyn) else []) ++ rest)
      = some ((if c then (s, dyn) else ([], 0)), rest) := by
  cases c
  · simp [stackRead]
  · simp only [stackRead, if_true, List.append_assoc]
    simp only [u64_enc _ _ hlen]
    rw [show s ++ (enc8 dyn ++ rest) = s ++ (enc8 dyn ++ rest) from rfl]
    rw [bytesN_enc s (enc8 dyn ++ rest)]
    simp only [u64_enc _ _ hdyn]

theorem dataSrcRead_enc (c : Bool) (prevDS : DataSrc) (d : Nat) (rest : List Nat)
    (hd : d < 2 ^ 64) :
    dataSrcRead c prevDS ((if c then enc8 d else []) ++ rest)
      = some ((if c then decodeDataSrc d else prevDS), rest) := by
  cases c
  · simp [dataSrcRead]
  · simp only [dataSrcRead, if_true]
    simp only [u64_enc _ _ hd]

theorem sampleScalars_enc (t : Nat) (inp : SampleInput) (rest : List Nat)
    (h1 : inp.ident < 2 ^ 64) (h2 : inp.ip < 2 ^ 64) (h3 : inp.pid < 2 ^ 32)
    (h4 : inp.tid < 2 ^ 32) (h5 : inp.time < 2 ^ 64) (h6 : inp.addr < 2 ^ 64)
    (h7 : inp.ident2 < 2 ^ 64) (h8 : inp.streamID < 2 ^ 64) (h9 : inp.cpu < 2 ^ 32)
    (h10 : inp.res < 2 ^ 32) (h11 : inp.period < 2 ^ 64) :
    sampleScalars t (encodeScalars t inp ++ rest)
      = some (((if hasBit t SampleFormatIP then inp.ip else 0),
          (if hasBit t SampleFormatTID then bufDecoder.toSigned32 inp.pid else 0),
          (if hasBit t SampleFormatTID then bufDecoder.toSigned32 inp.tid else 0),
          (if hasBit t SampleFormatTime then inp.time else 0),
          (if hasBit t SampleFormatAddr then inp.addr else 0),
          (if hasBit t SampleFormatStreamID then inp.streamID else 0),
          (if hasBit t SampleFormatCPU then inp.cpu else 0),
          (if hasBit t SampleFormatCPU then inp.res else 0),
          (if hasBit t SampleFormatPeriod then inp.period else 0)), rest) := by
  simp only [encodeScalars, List.append_assoc]
  simp only [sampleScalars, u64If_enc _ _ _ h1, u64If_enc _ _ _ h2, i32If_enc _ _ _ h3,
    i32If_enc _ _ _ h4, u64If_enc _ _ _ h5, u64If_enc _ _ _ h6, u64If_enc _ _ _ h7,
    u64If_enc _ _ _ h8, u32If_enc _ _ _ h9, u32If_enc _ _ _ h10, u64If_enc _ _ _ h11]

theorem sampleTail_enc (fl : File) (ea : EventAttr) (prev : RecordSample)
    (inp : SampleInput) (rest : List Nat)
    (hr : readsWF fl ea.readFormat inp.reads)
    (hcc : ∀ v ∈ inp.callchain, v < 2 ^ 64) (hccl : inp.callchain.length < 2 ^ 64)
    (hraw : inp.raw.length < 2 ^ 32)
    (hbr : ∀ b ∈ inp.branches, b.from_ < 2 ^ 64 ∧ b.to_ < 2 ^ 64 ∧ b.flags < 2 ^ 64)
    (hbrl : inp.branches.length < 2 ^ 64)
    (habi : inp.regsABI < 2 ^ 64) (hregs : ∀ v ∈ inp.regs, v < 2 ^ 64)
    (hcount : inp.regs.length = weight ea.sampleRegsUser)
    (hst : inp.stackBytes.length < 2 ^ 64) (hdyn : inp.stackDynSize < 2 ^ 64)
    (hw : inp.weightVal < 2 ^ 64) (hds : inp.dataSrcVal < 2 ^ 64)
    (htr : inp.transactionVal < 2 ^ 64) :
    sampleTail fl ea prev (encodeTail ea inp ++ rest)
      = some ((((if hasBit ea.sampleFormat SampleFormatRead then
            specReadFormat fl ea.readFormat inp.reads else prev.sampleRead), none),
          (if hasBit ea.sampleFormat SampleFormatCallchain then inp.callchain else []),
          (if hasBit ea.sampleFormat SampleFormatBranchStack then inp.branches
            else prev.branchStack),
          (if hasBit ea.sampleFormat SampleFormatRegsUser then (inp.regsABI, inp.regs)
            else (prev.regsABI, prev.regs)),
          (if hasBit ea.sampleFormat SampleFormatStackUser then
            (inp.stackBytes, inp.stackDynSize) else ([], 0)),
          (if hasBit ea.sampleFormat SampleFormatWeight then inp.weightVal else 0),
          (if hasBit ea.sampleFormat SampleFormatDataSrc then decodeDataSrc inp.dataSrcVal
            else prev.dataSrc),
          (if hasBit ea.sampleFormat SampleFormatTransaction then inp.transactionVal
            else 0)), rest) := by
  simp only [encodeTail, List.append_assoc]
  simp only [sampleTail,
    readBlock_enc _ fl ea.readFormat prev.sampleRead inp.reads _ hr,
    ccRead_enc _ inp.callchain _ hcc hccl,
    rawSkip_enc _ inp.raw _ hraw,
    branchRead_enc _ prev.branchStack inp.branches _ hbr hbrl,
    regsRead_enc _ ea.sampleRegsUser prev.regsABI prev.regs inp.regsABI inp.regs _
      habi hregs hcount,
    stackRead_enc _ inp.stackBytes inp.stackDynSize _ hst hdyn,
    u64If_enc _ _ _ hw,
    dataSrcRead_enc _ prev.dataSrc inp.dataSrcVal _ hds,
    u64If_enc _ _ _ htr]

theorem parseSample_spec (fl : File) (ea : EventAttr) (prev : RecordSample)
    (hdr : recordHeader) (inp : SampleInput) (rest : List Nat)
    (hoff : fl.idOffset = -1) (hattr : getAttr fl 0 = some ea)
    (hwf : sampleWF fl ea inp) :
    parseSample fl prev hdr (encodeSample ea inp ++ rest)
      = some ((some (specSample fl ea hdr prev inp), none), rest) := by
  obtain ⟨h1, h2, h3, h4, h5, h6, h7, h8, h9, h10, h11, hr, hcc, hccl, hraw, hbr, hbrl,
    habi, hregs, hcount, hst, hdyn, hw, hds, htr⟩ := hwf
  simp only [parseSample, hoff, if_true, hattr, encodeSample, List.append_assoc]
  simp only [sampleScalars_enc ea.sampleFormat inp _ h1 h2 h3 h4 h5 h6 h7 h8 h9 h10 h11]
  simp only [sampleTail_enc fl ea prev inp rest hr hcc hccl hraw hbr hbrl habi hregs
    hcount hst hdyn hw hds htr]
  have hfst : ∀ {α β : Type} (c : Bool) (a b : α × β),
      (if c then a else b).1 = if c then a.1 else b.1 := by
    intro α β c a b
    cases c <;> rfl
  have hsnd : ∀ {α β : Type} (c : Bool) (a b : α × β),
      (if c then a else b).2 = if c then a.2 else b.2 := by
    intro α β c a b
    cases c <;> rfl
  simp only [specSample, hfst, hsnd]

/-! ### parseMmap lemmas -/

theorem parseMmap_enc_v1 (prev : RecordMmap) (hdr : recordHeader)
    (pid tid addr len pgoff : Nat) (fname rest : List Nat)
    (hpid : pid < 2 ^ 32) (htid : tid < 2 ^ 32) (haddr : addr < 2 ^ 64)
    (hlen : len < 2 ^ 64) (hpgoff : pgoff < 2 ^ 64) (hf : ∀ b ∈ fname, b ≠ 0) :
    parseMmap prev hdr false (encodeMmapV1 pid tid addr len pgoff fname ++ rest)
      = some ({ prev with
                  data := hasBit hdr.misc recordMiscMmapData
                  pid := bufDecoder.toSigned32 pid
                  tid := bufDecoder.toSigned32 tid
                  addr := addr
                  len := len
                  pgoff := pgoff
                  filename := fname }, rest) := by
  have hc : fname ++ [0] ++ rest = fname ++ 0 :: rest := by simp
  simp only [encodeMmapV1, List.append_assoc, hc]
  simp only [parseMmap, i32_enc _ _ hpid, i32_enc _ _ htid, u64_enc _ _ haddr,
    u64_enc _ _ hlen, u64_enc _ _ hpgoff, cstring_enc _ _ hf, Bool.false_eq_true, if_false]

theorem parseMmap_enc_v2 (prev : RecordMmap) (hdr : recordHeader)
    (pid tid addr len pgoff major minor ino inoGen prot flags : Nat)
    (fname rest : List Nat)
    (hpid : pid < 2 ^ 32) (htid : tid < 2 ^ 32) (haddr : addr < 2 ^ 64)
    (hlen : len < 2 ^ 64) (hpgoff : pgoff < 2 ^ 64)
    (hmajor : major < 2 ^ 32) (hminor : minor < 2 ^ 32) (hino : ino < 2 ^ 64)
    (hinoGen : inoGen < 2 ^ 64) (hprot : prot < 2 ^ 32) (hflags : flags < 2 ^ 32)
    (hf : ∀ b ∈ fname, b ≠ 0) :
    parseMmap prev hdr true
        (encodeMmapV2 pid tid addr len pgoff major minor ino inoGen prot flags fname
          ++ rest)
      = some ({ prev with
                  data := hasBit hdr.misc recordMiscMmapData
                  pid := bufDecoder.toSigned32 pid
                  tid := bufDecoder.toSigned32 tid
                  addr := addr
                  len := len
                  pgoff := pgoff
                  major := major
                  minor := minor
                  ino := ino
                  inoGeneration := inoGen
                  prot := prot
                  flags := flags
                  filename := fname }, rest) := by
  have hc : fname ++ [0] ++ rest = fname ++ 0 :: rest := by simp
  simp only [encodeMmapV2, List.append_assoc, hc]
  simp only [parseMmap, i32_enc _ _ hpid, i32_enc _ _ htid, u64_enc _ _ haddr,
    u64_enc _ _ hlen, u64_enc _ _ hpgoff, u32_enc _ _ hmajor, u32_enc _ _ hminor,
    u64_enc _ _ hino, u64_enc _ _ hinoGen, u32_enc _ _ hprot, u32_enc _ _ hflags,
    cstring_enc _ _ hf, if_true]

/-! ### Header framing lemmas -/

theorem encodeHeader_length (ty misc size : Nat) : (encodeHeader ty misc size).length = 8 := by
  simp [encodeHeader, enc4, enc2, encU_length]

theorem header_take4 (ty misc size : Nat) (tail : List Nat) (hty : ty < 2 ^ 32) :
    bytesVal ((encodeHeader ty misc size ++ tail).take 4) = ty := by
  have h4 : (enc4 ty).length = 4 := encU_length 4 ty
  simp only [encodeHeader, List.append_assoc]
  rw [List.take_append_of_le_length (by omega), List.take_of_length_le (by omega)]
  have := bytesVal_encU 4 ty
  simp only [enc4] at *
  rw [this, Nat.mod_eq_of_lt (by norm_num at hty ⊢; omega)]

theorem header_misc (ty misc size : Nat) (tail : List Nat) (hmisc : misc < 2 ^ 16) :
    bytesVal (((encodeHeader ty misc size ++ tail).drop 4).take 2) = misc := by
  have h4 : (enc4 ty).length = 4 := encU_length 4 ty
  have h2 : (enc2 misc).length = 2 := encU_length 2 misc
  simp only [encodeHeader, List.append_assoc]
  rw [List.drop_append_of_le_length (by omega), List.drop_eq_nil_of_le (by omega)]
  simp only [List.nil_append]
  rw [List.take_append_of_le_length (by omega), List.take_of_length_le (by omega)]
  have := bytesVal_encU 2 misc
  simp only [enc2] at *
  rw [this, Nat.mod_eq_of_lt (by norm_num at hmisc ⊢; omega)]

theorem header_size (ty misc size : Nat) (tail : List Nat) (hsize : size < 2 ^ 16) :
    bytesVal (((encodeHeader ty misc size ++ tail).drop 6).take 2) = size := by
  have h4 : (enc4 ty).length = 4 := encU_length 4 ty
  have h2 : (enc2 misc).length = 2 := encU_length 2 misc
  have h2b : (enc2 size).length = 2 := encU_length 2 size
  have hsplit : encodeHeader ty misc size ++ tail = (enc4 ty ++ enc2 misc) ++ (enc2 size ++ tail) := by
    simp [encodeHeader]
  rw [hsplit]
  rw [List.drop_append_of_le_length (by simp [h4, h2]), List.drop_eq_nil_of_le (by simp [h4, h2])]
  simp only [List.nil_append]
  rw [List.take_append_of_le_length (by omega), List.take_of_length_le (by omega)]
  have := bytesVal_encU 2 size
  simp only [enc2] at *
  rw [this, Nat.mod_eq_of_lt (by norm_num at hsize ⊢; omega)]

theorem header_drop8 (ty misc size : Nat) (tail : List Nat) :
    (encodeHeader ty misc size ++ tail).drop 8 = tail := by
  have h8 : (encodeHeader ty misc size).length = 8 := encodeHeader_length ty misc size
  rw [List.drop_append_of_le_length (by omega), List.drop_eq_nil_of_le (by omega)]
  simp

/-! ### Claim theorems -/

set_option maxHeartbeats 1600000 in
/-- C9: a well-framed record whose kind is not one of the modeled kinds
(mmap, lost, comm, exit, throttle, unthrottle, fork, sample, mmap2) decodes
without error to the Unknown variant carrying exactly the raw header, the
iterator advances past its declared payload and returns true, and a record
with header size 8 consumes 0 payload bytes beyond the header. -/
theorem c9_unknown_kind_passthrough (ty misc size : Nat) (payload rest : List Nat)
    (r : Records)
    (hty : ty < 2 ^ 32) (hmisc : misc < 2 ^ 16) (hsize8 : 8 ≤ size) (hsize : size < 2 ^ 16)
    (hpl : payload.length = size - 8)
    (h1 : ty ≠ RecordTypeMmap) (h2 : ty ≠ RecordTypeLost) (h3 : ty ≠ RecordTypeComm)
    (h4 : ty ≠ RecordTypeExit) (h5 : ty ≠ RecordTypeThrottle)
    (h6 : ty ≠ RecordTypeUnthrottle) (h7 : ty ≠ RecordTypeFork)
    (h8 : ty ≠ RecordTypeSample) (h9 : ty ≠ recordTypeMmap2)
    (herr : r.err = none)
    (hstream : r.stream = encodeHeader ty misc size ++ payload ++ rest) :
    Next r = some (true, { r with
      stream := rest
      record := some (Record.unknown ⟨ty, misc, size⟩) }) := by
  have hhl : (encodeHeader ty misc size).length = 8 := encodeHeader_length ty misc size
  have hne : r.stream.isEmpty = false := by
    rw [hstream]
    cases hh : encodeHeader ty misc size with
    | nil => rw [hh] at hhl; simp at hhl
    | cons a t => simp [hh]
  have hlen8 : ¬ r.stream.length < 8 := by
    rw [hstream]
    simp only [List.append_assoc, List.length_append]
    omega
  have hstream2 : r.stream = encodeHeader ty misc size ++ (payload ++ rest) := by
    rw [hstream, List.append_assoc]
  have hty4 : bytesVal (r.stream.take 4) = ty := by
    rw [hstream2]; exact header_take4 ty misc size _ hty
  have hmisc2 : bytesVal ((r.stream.drop 4).take 2) = misc := by
    rw [hstream2]; exact header_misc ty misc size _ hmisc
  have hsize2 : bytesVal ((r.stream.drop 6).take 2) = size := by
    rw [hstream2]; exact header_size ty misc size _ hsize
  have hdrop8 : r.stream.drop 8 = payload ++ rest := by
    rw [hstream2]; exact header_drop8 ty misc size _
  have hrlen : (size + 2 ^ 16 - 8) % 2 ^ 16 = size - 8 := by omega
  have herr2 : r.err.isSome = false := by rw [herr]; rfl
  have hplrest : ((payload ++ rest).length < size - 8) = False := by
    simp only [List.length_append]
    simp only [eq_iff_iff, iff_false]
    omega
  have htake : (payload ++ rest).take (size - 8) = payload := by
    rw [← hpl, List.take_append_of_le_length (by omega), List.take_of_length_le (by omega)]
  have hdrop : (payload ++ rest).drop (size - 8) = rest := by
    rw [← hpl, List.drop_append_of_le_length (by omega), List.drop_eq_nil_of_le (by omega)]
    simp
  have hdisp : dispatch r ⟨ty, misc, size⟩ payload
      = some { r with record := some (Record.unknown ⟨ty, misc, size⟩) } := by
    unfold dispatch
    rw [if_neg h1, if_neg h2, if_neg h3, if_neg h4, if_neg h5, if_neg h6, if_neg h7,
      if_neg h8, if_neg h9]
  simp only [Next, herr2, Bool.false_eq_true, if_false, hne, hlen8, hty4, hmisc2, hsize2,
    hdrop8, nextAfterHeader, hrlen, hplrest, htake, hdrop, hdisp]
  simp [herr]

/-- C10: whenever Next returns true, the iterator's stored error is nil:
the final error check in Next means a successfully returned record can
never coexist with a recorded error for that advance. -/
theorem c10_next_true_err_none (r r' : Records) (b : Bool)
    (h : Next r = some (b, r')) (hb : b = true) : r'.err = none := by
  subst hb
  unfold Next at h
  split at h
  · simp at h
  · split at h
    · simp at h
    · split at h
      · simp at h
      · unfold nextAfterHeader at h
        split at h
        · simp at h
        · split at h
          · exact absurd h (by simp)
          · rename_i r1 heq
            simp only [Option.some.injEq, Prod.mk.injEq] at h
            obtain ⟨hb2, hr2⟩ := h
            rw [← hr2]
            have h3 : r1.err.isNone = true := hb2
            simpa [Option.isNone_iff_eq_none] using h3

/-- C2: parseSample consumes its payload in exactly the fixed order of spec
section 4.5 - discarded identifier, ip, pid/tid (one bit), time, addr,
discarded identifier, stream id, cpu/res (one bit), period, read-format
block, call chain, raw skip, branch stack, user registers (ABI tag first),
user stack (size, bytes, trailing dynamic-size word), weight, data-source
word, and one combined transaction word whose low 32 bits are the
transaction flags and whose high 32 bits the abort code; each conditional
read either consumes its fixed width or consumes nothing and yields zero. -/
theorem c2_sample_fixed_order (fl : File) (ea : EventAttr) (prev : RecordSample)
    (hdr : recordHeader) (inp : SampleInput) (rest : List Nat)
    (hoff : fl.idOffset = -1) (hattr : getAttr fl 0 = some ea)
    (hwf : sampleWF fl ea inp) :
    parseSample fl prev hdr (encodeSample ea inp ++ rest)
      = some ((some (specSample fl ea hdr prev inp), none), rest) :=
  parseSample_spec fl ea prev hdr inp rest hoff hattr hwf

/-- Witness for C2 at a full-coverage concrete input. -/
theorem c2_sample_fixed_order_witness :
    parseSample wFile RecordSample.zero wHdr (encodeSample wEa wInp ++ [7, 7])
      = some ((some (specSample wFile wEa wHdr RecordSample.zero wInp), none), [7, 7]) :=
  c2_sample_fixed_order wFile wEa RecordSample.zero wHdr wInp [7, 7] (by decide) (by decide)
    (by unfold sampleWF readsWF; decide)

/-- C1 (amended): a decoded Sample takes exactly the fields whose mask bits
are set from the payload; a clear bit yields the zero scalar, and a clear
call-chain or user-stack bit yields the empty collection (so a 2-address
call chain decoded after a longer one has length exactly 2); but a clear
read, branch-stack, user-registers or data-source bit leaves the previous
record's contents in the reused scratch record rather than clearing it. -/
theorem c1_field_presence (fl : File) (ea : EventAttr) (prev : RecordSample)
    (hdr : recordHeader) (inp : SampleInput) (rest : List Nat)
    (hoff : fl.idOffset = -1) (hattr : getAttr fl 0 = some ea)
    (hwf : sampleWF fl ea inp) :
    ∃ s, parseSample fl prev hdr (encodeSample ea inp ++ rest)
        = some ((some s, none), rest)
      ∧ s.ip = (if hasBit ea.sampleFormat SampleFormatIP then inp.ip else 0)
      ∧ s.pid = (if hasBit ea.sampleFormat SampleFormatTID then
          bufDecoder.toSigned32 inp.pid else 0)
      ∧ s.tid = (if hasBit ea.sampleFormat SampleFormatTID then
          bufDecoder.toSigned32 inp.tid else 0)
      ∧ s.time = (if hasBit ea.sampleFormat SampleFormatTime then inp.time else 0)
      ∧ s.addr = (if hasBit ea.sampleFormat SampleFormatAddr then inp.addr else 0)
      ∧ s.streamID = (if hasBit ea.sampleFormat SampleFormatStreamID then inp.streamID else 0)
      ∧ s.cpu = (if hasBit ea.sampleFormat SampleFormatCPU then inp.cpu else 0)
      ∧ s.res = (if hasBit ea.sampleFormat SampleFormatCPU then inp.res else 0)
      ∧ s.period = (if hasBit ea.sampleFormat SampleFormatPeriod then inp.period else 0)
      ∧ s.weight = (if hasBit ea.sampleFormat SampleFormatWeight then inp.weightVal else 0)
      ∧ s.transaction = (if hasBit ea.sampleFormat SampleFormatTransaction then
          inp.transactionVal else 0) &&& 0xffffffff
      ∧ s.abortCode = (if hasBit ea.sampleFormat SampleFormatTransaction then
          inp.transactionVal else 0) >>> 32
      ∧ s.callchain = (if hasBit ea.sampleFormat SampleFormatCallchain then
          inp.callchain else [])
      ∧ s.stackUser = (if hasBit ea.sampleFormat SampleFormatStackUser then
          inp.stackBytes else [])
      ∧ s.stackUserDynSize = (if hasBit ea.sampleFormat SampleFormatStackUser then
          inp.stackDynSize else 0)
      ∧ s.sampleRead = (if hasBit ea.sampleFormat SampleFormatRead then
          specReadFormat fl ea.readFormat inp.reads else prev.sampleRead)
      ∧ s.branchStack = (if hasBit ea.sampleFormat SampleFormatBranchStack then
          inp.branches else prev.branchStack)
      ∧ s.regsABI = (if hasBit ea.sampleFormat SampleFormatRegsUser then
          inp.regsABI else prev.regsABI)
      ∧ s.regs = (if hasBit ea.sampleFormat SampleFormatRegsUser then
          inp.regs else prev.regs)
      ∧ s.dataSrc = (if hasBit ea.sampleFormat SampleFormatDataSrc then
          decodeDataSrc inp.dataSrcVal else prev.dataSrc) :=
  ⟨specSample fl ea hdr prev inp,
   parseSample_spec fl ea prev hdr inp rest hoff hattr hwf,
   rfl, rfl, rfl, rfl, rfl, rfl, rfl, rfl, rfl, rfl, rfl, rfl, rfl, rfl, rfl, rfl,
   rfl, rfl, rfl, rfl⟩

/-- Witness for C1 (amended) at the full-coverage concrete input. -/
theorem c1_field_presence_witness :
    ∃ s, parseSample wFile RecordSample.zero wHdr (encodeSample wEa wInp ++ [])
        = some ((some s, none), [])
      ∧ s.ip = (if hasBit wEa.sampleFormat SampleFormatIP then wInp.ip else 0)
      ∧ s.pid = (if hasBit wEa.sampleFormat SampleFormatTID then
          bufDecoder.toSigned32 wInp.pid else 0)
      ∧ s.tid = (if hasBit wEa.sampleFormat SampleFormatTID then
          bufDecoder.toSigned32 wInp.tid else 0)
      ∧ s.time = (if hasBit wEa.sampleFormat SampleFormatTime then wInp.time else 0)
      ∧ s.addr = (if hasBit wEa.sampleFormat SampleFormatAddr then wInp.addr else 0)
      ∧ s.streamID = (if hasBit wEa.sampleFormat SampleFormatStreamID then
          wInp.streamID else 0)
      ∧ s.cpu = (if hasBit wEa.sampleFormat SampleFormatCPU then wInp.cpu else 0)
      ∧ s.res = (if hasBit wEa.sampleFormat SampleFormatCPU then wInp.res else 0)
      ∧ s.period = (if hasBit wEa.sampleFormat SampleFormatPeriod then wInp.period else 0)
      ∧ s.weight = (if hasBit wEa.sampleFormat SampleFormatWeight then wInp.weightVal else 0)
      ∧ s.transaction = (if hasBit wEa.sampleFormat SampleFormatTransaction then
          wInp.transactionVal else 0) &&& 0xffffffff
      ∧ s.abortCode = (if hasBit wEa.sampleFormat SampleFormatTransaction then
          wInp.transactionVal else 0) >>> 32
      ∧ s.callchain = (if hasBit wEa.sampleFormat SampleFormatCallchain then
          wInp.callchain else [])
      ∧ s.stackUser = (if hasBit wEa.sampleFormat SampleFormatStackUser then
          wInp.stackBytes else [])
      ∧ s.stackUserDynSize = (if hasBit wEa.sampleFormat SampleFormatStackUser then
          wInp.stackDynSize else 0)
      ∧ s.sampleRead = (if hasBit wEa.sampleFormat SampleFormatRead then
          specReadFormat wFile wEa.readFormat wInp.reads else RecordSample.zero.sampleRead)
      ∧ s.branchStack = (if hasBit wEa.sampleFormat SampleFormatBranchStack then
          wInp.branches else RecordSample.zero.branchStack)
      ∧ s.regsABI = (if hasBit wEa.sampleFormat SampleFormatRegsUser then
          wInp.regsABI else RecordSample.zero.regsABI)
      ∧ s.regs = (if hasBit wEa.sampleFormat SampleFormatRegsUser then
          wInp.regs else RecordSample.zero.regs)
      ∧ s.dataSrc = (if hasBit wEa.sampleFormat SampleFormatDataSrc then
          decodeDataSrc wInp.dataSrcVal else RecordSample.zero.dataSrc) :=
  c1_field_presence wFile wEa RecordSample.zero wHdr wInp [] (by decide) (by decide)
    (by unfold sampleWF readsWF; decide)

/-- Counterexample for C1 as stated: the second sample of c1State has its
branch-stack bit clear, yet its decoded branch stack is the previous
record's [(10, 20, 30)] rather than the empty list. -/
theorem c1_stale_branch_stack_counterexample :
    hasBit c1Attr2.sampleFormat SampleFormatBranchStack = false
      ∧ c1Probe = some [⟨10, 20, 30⟩] := by
  constructor
  · decide
  · decide

/-- C3: parseReadFormat obeys the grouped/non-grouped ordering asymmetry:
with the group bit clear it produces exactly one entry read in the order
value, time-enabled?, time-running?, attribute-id?; with the group bit set
it reads a leading count and then that many entries, each in the order
time-enabled?, time-running?, value, attribute-id?, preserving entry order
and values. -/
theorem c3_read_format_modes (fl : File) (f : Nat) (es : List ReadEntryIn) (rest : List Nat)
    (hwf : readsWF fl f es) :
    (hasBit f ReadFormatGroup = false →
      parseReadFormat fl f (encodeReadOne f (es.headD ⟨0, 0, 0, 0⟩) ++ rest)
        = some (([specReadEntry fl f (es.headD ⟨0, 0, 0, 0⟩)], none), rest)) ∧
    (hasBit f ReadFormatGroup = true →
      parseReadFormat fl f
          (enc8 es.length ++ ((es.map (encodeReadEntryGroup f)).flatten ++ rest))
        = some ((es.map (specReadEntry fl f), none), rest)) := by
  constructor
  · intro hg
    have h := parseReadFormat_enc fl f es rest hwf
    simp only [encodeReadFormat, specReadFormat, hg, Bool.false_eq_true, if_false] at h
    exact h
  · intro hg
    have h := parseReadFormat_enc fl f es rest hwf
    simp only [encodeReadFormat, specReadFormat, hg, if_true, List.append_assoc] at h
    exact h

/-- Witness for C3: a grouped block of 3 entries round-trips in order, and a
non-grouped block decodes its single entry. -/
theorem c3_read_format_modes_witness :
    (parseReadFormat c3File c3fG
        (enc8 c3Entries.length ++ ((c3Entries.map (encodeReadEntryGroup c3fG)).flatten
          ++ [9]))
      = some ((c3Entries.map (specReadEntry c3File c3fG), none), [9])) ∧
    (parseReadFormat c3File c3fNG
        (encodeReadOne c3fNG (([⟨11, 12, 13, 5⟩] : List ReadEntryIn).headD ⟨0, 0, 0, 0⟩)
          ++ [9])
      = some (([specReadEntry c3File c3fNG
          (([⟨11, 12, 13, 5⟩] : List ReadEntryIn).headD ⟨0, 0, 0, 0⟩)], none), [9])) :=
  ⟨(c3_read_format_modes c3File c3fG c3Entries [9]
      (by unfold readsWF; decide)).2 (by decide),
   (c3_read_format_modes c3File c3fNG [⟨11, 12, 13, 5⟩] [9]
      (by unfold readsWF; decide)).1 (by decide)⟩

/-- C4: the code does not surface a malformed collection count as a
retrievable error: a Sample whose declared call-chain count (50) reaches far
past the record's 8-byte payload makes the decoder read out of range - a
panic escaping Next (modelled as none) - instead of recording an error the
iterator could report. -/
theorem c4_oversized_count_panics : Next c4State = none := by decide

/-- C5 (amended): parseMmap with the v2 flag false advances the cursor
through exactly pid, tid, addr, len, pgoff and the string-terminated
filename, leaving the six mmap2-only fields at their previous scratch
contents; with the v2 flag true it additionally consumes major, minor, ino,
ino_generation, prot and flags between pgoff and the filename. -/
theorem c5_mmap_versions (prev : RecordMmap) (hdr : recordHeader)
    (pid tid addr len pgoff major minor ino inoGen prot flags : Nat)
    (fname rest : List Nat)
    (hpid : pid < 2 ^ 32) (htid : tid < 2 ^ 32) (haddr : addr < 2 ^ 64)
    (hlen : len < 2 ^ 64) (hpgoff : pgoff < 2 ^ 64)
    (hmajor : major < 2 ^ 32) (hminor : minor < 2 ^ 32) (hino : ino < 2 ^ 64)
    (hinoGen : inoGen < 2 ^ 64) (hprot : prot < 2 ^ 32) (hflags : flags < 2 ^ 32)
    (hf : ∀ b ∈ fname, b ≠ 0) :
    (parseMmap prev hdr false (encodeMmapV1 pid tid addr len pgoff fname ++ rest)
      = some ({ prev with
                  data := hasBit hdr.misc recordMiscMmapData
                  pid := bufDecoder.toSigned32 pid
                  tid := bufDecoder.toSigned32 tid
                  addr := addr
                  len := len
                  pgoff := pgoff
                  filename := fname }, rest)) ∧
    (parseMmap prev hdr true
        (encodeMmapV2 pid tid addr len pgoff major minor ino inoGen prot flags fname
          ++ rest)
      = some ({ prev with
                  data := hasBit hdr.misc recordMiscMmapData
                  pid := bufDecoder.toSigned32 pid
                  tid := bufDecoder.toSigned32 tid
                  addr := addr
                  len := len
                  pgoff := pgoff
                  major := major
                  minor := minor
                  ino := ino
                  inoGeneration := inoGen
                  prot := prot
                  flags := flags
                  filename := fname }, rest)) :=
  ⟨parseMmap_enc_v1 prev hdr pid tid addr len pgoff fname rest hpid htid haddr hlen
      hpgoff hf,
   parseMmap_enc_v2 prev hdr pid tid addr len pgoff major minor ino inoGen prot flags
      fname rest hpid htid haddr hlen hpgoff hmajor hminor hino hinoGen hprot hflags hf⟩

/-- Witness for C5 (amended) at concrete values. -/
theorem c5_mmap_versions_witness :
    (parseMmap RecordMmap.zero ⟨1, 0, 42⟩ false (encodeMmapV1 1 2 3 4 5 [65] ++ [9])
      = some ({ RecordMmap.zero with
                  data := hasBit (recordHeader.mk 1 0 42).misc recordMiscMmapData
                  pid := bufDecoder.toSigned32 1
                  tid := bufDecoder.toSigned32 2
                  addr := 3
                  len := 4
                  pgoff := 5
                  filename := [65] }, [9])) ∧
    (parseMmap RecordMmap.zero ⟨1, 0, 42⟩ true
        (encodeMmapV2 1 2 3 4 5 7 8 9 10 11 12 [65] ++ [9])
      = some ({ RecordMmap.zero with
                  data := hasBit (recordHeader.mk 1 0 42).misc recordMiscMmapData
                  pid := bufDecoder.toSigned32 1
                  tid := bufDecoder.toSigned32 2
                  addr := 3
                  len := 4
                  pgoff := 5
                  major := 7
                  minor := 8
                  ino := 9
                  inoGeneration := 10
                  prot := 11
                  flags := 12
                  filename := [65] }, [9])) :=
  c5_mmap_versions RecordMmap.zero ⟨1, 0, 42⟩ 1 2 3 4 5 7 8 9 10 11 12 [65] [9]
    (by decide) (by decide) (by decide) (by decide) (by decide) (by decide) (by decide)
    (by decide) (by decide) (by decide) (by decide) (by decide)

/-- Counterexample for C5 as stated: after decoding an mmap2 record, a v1
mmap record decodes with the six mmap2-only fields still holding the
previous record's values (7, 8, 9, 10, 11, 12), not zero. -/
theorem c5_stale_mmap2_fields_counterexample :
    c5Probe = some (7, 8, 9, 10, 11, 12) := by decide

/-- C6: the helper weight(x) equals the number of set bits of x for every
64-bit input, and the user-registers block reads one 64-bit ABI tag followed
by exactly popcount(register-selection mask) 64-bit values - the count
derived solely from the mask, never from a stream-declared length. -/
theorem c6_weight_popcount_regs :
    (∀ x : Nat, x < 2 ^ 64 → weight x = popcount x) ∧
    (∀ (mask prevABI abi : Nat) (prevRegs regs rest : List Nat),
      mask < 2 ^ 64 → abi < 2 ^ 64 → (∀ v ∈ regs, v < 2 ^ 64) →
      regs.length = popcount mask →
      regsRead true mask prevABI prevRegs (enc8 abi ++ ((regs.map enc8).flatten ++ rest))
        = some ((abi, regs), rest)) := by
  constructor
  · exact weight_eq_popcount
  · intro mask prevABI abi prevRegs regs rest hmask habi hregs hcount
    have h := regsRead_enc true mask prevABI prevRegs abi regs rest habi hregs
      (by rw [hcount, weight_eq_popcount mask hmask])
    simpa [List.append_assoc] using h

/-- Witness for C6: the mask 37 has bits {0, 2, 5} set, so exactly 3
register values are read after the ABI tag. -/
theorem c6_weight_popcount_regs_witness :
    weight 37 = popcount 37 ∧
    regsRead true 37 0 [] (enc8 11 ++ ((([1, 2, 3].map enc8).flatten) ++ [9]))
      = some ((11, [1, 2, 3]), [9]) :=
  ⟨c6_weight_popcount_regs.1 37 (by decide),
   c6_weight_popcount_regs.2 37 0 11 [] [1, 2, 3] [9] (by decide) (by decide) (by decide)
     (by decide)⟩

/-- C7: decodeDataSrc is total over all 64-bit words and unpacks op (bits
0-4), level (bits 5-18), snoop (bits 19-23), lock (bits 24-25) and dtlb
(bits 26-32) independently: a sub-field whose lowest bit is set yields its
not-applicable sentinel regardless of its remaining bits and of the sibling
sub-fields; when the level's lowest bit is clear the miss flag is bit 2 of
the level field and the level value is the field shifted right by 3. -/
theorem c7_datasrc_fields (d : Nat) :
    ((hasBit ((d >>> 0) &&& 0x1f) 0x1 = true → (decodeDataSrc d).op = DataSrcOp.na) ∧
     (hasBit ((d >>> 0) &&& 0x1f) 0x1 = false →
       (decodeDataSrc d).op = DataSrcOp.val (((d >>> 0) &&& 0x1f) >>> 1))) ∧
    ((hasBit ((d >>> 5) &&& 0x3fff) 0x1 = true →
       (decodeDataSrc d).miss = false ∧ (decodeDataSrc d).level = DataSrcLevel.na) ∧
     (hasBit ((d >>> 5) &&& 0x3fff) 0x1 = false →
       (decodeDataSrc d).miss = hasBit ((d >>> 5) &&& 0x3fff) 0x4 ∧
       (decodeDataSrc d).level = DataSrcLevel.val (((d >>> 5) &&& 0x3fff) >>> 3))) ∧
    ((hasBit ((d >>> 19) &&& 0x1f) 0x1 = true → (decodeDataSrc d).snoop = DataSrcSnoop.na) ∧
     (hasBit ((d >>> 19) &&& 0x1f) 0x1 = false →
       (decodeDataSrc d).snoop = DataSrcSnoop.val (((d >>> 19) &&& 0x1f) >>> 1))) ∧
    ((hasBit ((d >>> 24) &&& 0x3) 0x1 = true → (decodeDataSrc d).locked = DataSrcLock.na) ∧
     (hasBit ((d >>> 24) &&& 0x3) 0x1 = false → hasBit ((d >>> 24) &&& 0x3) 0x2 = true →
       (decodeDataSrc d).locked = DataSrcLock.locked) ∧
     (hasBit ((d >>> 24) &&& 0x3) 0x1 = false → hasBit ((d >>> 24) &&& 0x3) 0x2 = false →
       (decodeDataSrc d).locked = DataSrcLock.unlocked)) ∧
    ((hasBit ((d >>> 26) &&& 0x7f) 0x1 = true → (decodeDataSrc d).tlb = DataSrcTLB.na) ∧
     (hasBit ((d >>> 26) &&& 0x7f) 0x1 = false →
       (decodeDataSrc d).tlb = DataSrcTLB.val (((d >>> 26) &&& 0x7f) >>> 1))) := by
  refine ⟨⟨?_, ?_⟩, ⟨?_, ?_⟩, ⟨?_, ?_⟩, ⟨?_, ?_, ?_⟩, ⟨?_, ?_⟩⟩
  · intro h; simp only [Nat.shiftRight_zero] at h; simp [decodeDataSrc, h]
  · intro h; simp only [Nat.shiftRight_zero] at h; simp [decodeDataSrc, h]
  · intro h; simp [decodeDataSrc, h]
  · intro h; simp [decodeDataSrc, h]
  · intro h; simp [decodeDataSrc, h]
  · intro h; simp [decodeDataSrc, h]
  · intro h; simp [decodeDataSrc, h]
  · intro h1 h2; simp [decodeDataSrc, h1, h2]
  · intro h1 h2; simp [decodeDataSrc, h1, h2]
  · intro h; simp [decodeDataSrc, h]
  · intro h; simp [decodeDataSrc, h]

/-- Witness for C7: the word 3 has the op-not-applicable bit set together
with a further op bit, yet yields the sentinel Op while its level field
decodes normally; the word 1152 carries the level pattern "L2 cache, miss"
(level field 0x24) and yields miss = true with level value 4. -/
theorem c7_datasrc_fields_witness :
    (decodeDataSrc 3).op = DataSrcOp.na ∧
    (decodeDataSrc 3).level = DataSrcLevel.val (((3 >>> 5) &&& 0x3fff) >>> 3) ∧
    (decodeDataSrc 1152).miss = hasBit ((1152 >>> 5) &&& 0x3fff) 0x4 ∧
    (decodeDataSrc 1152).level = DataSrcLevel.val (((1152 >>> 5) &&& 0x3fff) >>> 3) :=
  ⟨(c7_datasrc_fields 3).1.1 (by decide),
   ((c7_datasrc_fields 3).2.1.2 (by decide)).2,
   ((c7_datasrc_fields 1152).2.1.2 (by decide)).1,
   ((c7_datasrc_fields 1152).2.1.2 (by decide)).2⟩

/-- C8: failures are sticky - once the iterator's error is set, every
subsequent Next call returns false without touching the stream or the
stored record, so Err keeps returning that same first error unchanged. -/
theorem c8_sticky_failure (r : Records) (e : DecodeErr) (h : r.err = some e) :
    Next r = some (false, r) := by
  simp [Next, h]

/-- Witness for C8: a truncated record sets the error; the two following
advance calls both return false on the unchanged state, whose error is
still the same unexpected-EOF value. -/
theorem c8_sticky_failure_witness :
    Next c8State0 = some (false, c8State1) ∧
    c8State1.err = some DecodeErr.unexpectedEOF ∧
    Next c8State1 = some (false, c8State1) := by
  refine ⟨by decide, by decide, ?_⟩
  exact c8_sticky_failure c8State1 DecodeErr.unexpectedEOF (by decide)

/-- Witness for C9: the unmodeled kind 100 with a 3-byte payload decodes to
the Unknown variant and iteration continues past it; the unmodeled kind 77
with header size 8 consumes exactly 0 payload bytes. -/
theorem c9_unknown_kind_passthrough_witness :
    Next c9State = some (true, { c9State with
      stream := [9, 9, 9, 9, 9]
      record := some (Record.unknown ⟨100, 7, 11⟩) }) ∧
    Next c9StateZero = some (true, { c9StateZero with
      stream := [4, 4, 4, 4]
      record := some (Record.unknown ⟨77, 3, 8⟩) }) :=
  ⟨c9_unknown_kind_passthrough 100 7 11 [1, 2, 3] [9, 9, 9, 9, 9] c9State (by decide)
      (by decide) (by decide) (by decide) (by decide) (by decide) (by decide) (by decide)
      (by decide) (by decide) (by decide) (by decide) (by decide) (by decide) rfl rfl,
   c9_unknown_kind_passthrough 77 3 8 [] [4, 4, 4, 4] c9StateZero (by decide)
      (by decide) (by decide) (by decide) (by decide) (by decide) (by decide) (by decide)
      (by decide) (by decide) (by decide) (by decide) (by decide) (by decide) rfl rfl⟩

/-- Witness for C10: the successful advance over c9StateZero leaves the
stored error nil. -/
theorem c10_next_true_err_none_witness :
    ({ c9StateZero with
        stream := [4, 4, 4, 4]
        record := some (Record.unknown ⟨77, 3, 8⟩) } : Records).err = none :=
  c10_next_true_err_none c9StateZero
    { c9StateZero with
        stream := [4, 4, 4, 4]
        record := some (Record.unknown ⟨77, 3, 8⟩) }
    true (by decide) rfl
